import Mathlib

/-!
Shallow embedding of the Langchain-K6-Performance-Analyzer core in Lean 4.

Python floats are modelled as exact rationals (ℚ), Python `None` as `Option.none`,
timestamps as rationals (seconds since an arbitrary epoch), and the random source of
the reservoir sampler as an explicit argument supplying each drawn index.
Fallible code returns `Except String`.  Every definition is translated from the
source files of the repository; the only exception is
`IngestionService.ingest_file_to_db_with_staging`, which is called by the worker
task but absent from the tree and is modelled from the spec (§4.F), as marked in
its doc comment.
-/

/- ================================================================
   src/eda/utility.py
   ================================================================ -/

/-- `StreamingStats` from `src/eda/utility.py`: a Welford accumulator.
`min_val`/`max_val` use `none` for the initial `float("inf")`/`float("-inf")`
sentinels (the code only exposes them once `n > 0`, and `min(inf, x) = x`,
`max(-inf, x) = x`, which is exactly the `none` branch of `Option` folding). -/
structure StreamingStats where
  n : ℕ
  mean : ℚ
  M2 : ℚ
  min_val : Option ℚ
  max_val : Option ℚ
deriving DecidableEq

/-- `StreamingStats.__init__`. -/
def StreamingStats.init : StreamingStats :=
  { n := 0, mean := 0, M2 := 0, min_val := none, max_val := none }

/-- `StreamingStats.update(x)`. -/
def StreamingStats.update (s : StreamingStats) (x : ℚ) : StreamingStats :=
  let n' := s.n + 1
  let delta := x - s.mean
  let mean' := s.mean + delta / (n' : ℚ)
  let delta2 := x - mean'
  { n := n'
    mean := mean'
    M2 := s.M2 + delta * delta2
    min_val := some (match s.min_val with | none => x | some m => min m x)
    max_val := some (match s.max_val with | none => x | some m => max m x) }

/-- `StreamingStats.variance` property. -/
def StreamingStats.variance (s : StreamingStats) : ℚ :=
  if 1 < s.n then s.M2 / (s.n : ℚ) else 0

/-- `StreamingStats.avg` property: the code returns `self.mean` unconditionally,
so the Python value is always a float, never `None`. -/
def StreamingStats.avg (s : StreamingStats) : Option ℚ :=
  some s.mean

/-- `StreamingStats.min` property: `self.min_val if self.n > 0 else None`. -/
def StreamingStats.min (s : StreamingStats) : Option ℚ :=
  if 0 < s.n then s.min_val else none

/-- `StreamingStats.max` property: `self.max_val if self.n > 0 else None`. -/
def StreamingStats.max (s : StreamingStats) : Option ℚ :=
  if 0 < s.n then s.max_val else none

/-- `ReservoirSampler` from `src/eda/utility.py`. -/
structure ReservoirSampler where
  size : ℕ
  sample : List ℚ
  count : ℕ
deriving DecidableEq

/-- `ReservoirSampler.__init__(size)`. -/
def ReservoirSampler.init (size : ℕ) : ReservoirSampler :=
  { size := size, sample := [], count := 0 }

/-- `ReservoirSampler.update(x)`.  The index drawn by
`random.randint(0, self.count - 1)` (after the increment of `count`, inclusive
bounds) is passed in as the explicit argument `idx`. -/
def ReservoirSampler.update (s : ReservoirSampler) (x : ℚ) (idx : ℕ) : ReservoirSampler :=
  { size := s.size
    count := s.count + 1
    sample :=
      if s.sample.length < s.size then s.sample ++ [x]
      else if idx < s.size then s.sample.set idx x
      else s.sample }

/-- `np.percentile(l, p)` with the default linear interpolation: sort ascending,
take `h = p/100 * (n-1)`, and interpolate between the entries at `⌊h⌋` and
`⌊h⌋ + 1` (clamped to the last entry). -/
def npPercentile (l : List ℚ) (p : ℚ) : ℚ :=
  let s := List.insertionSort (· ≤ ·) l
  let n := s.length
  let h := p * ((n : ℚ) - 1) / 100
  let i := (Rat.floor h).toNat
  let g := h - (i : ℚ)
  s.getD i 0 + g * (s.getD (Min.min (i + 1) (n - 1)) 0 - s.getD i 0)

/-- `ReservoirSampler.percentile(p)`: `None` on an empty buffer, otherwise
`np.percentile(self.sample, p)`. -/
def ReservoirSampler.percentile (s : ReservoirSampler) (p : ℚ) : Option ℚ :=
  if s.sample.isEmpty then none else some (npPercentile s.sample p)

/- ================================================================
   src/eda/metrics.py
   ================================================================ -/

/-- One row of a pivoted dataframe chunk as consumed by the aggregators
(`src/eda/metrics.py`): the columns read are `success`, `status` (after
`astype(int)`), `timestamp`, `response_time_ms` and the six optional latency
columns (which go through `dropna()` in the endpoint aggregator). -/
structure LogRecord where
  timestamp : ℚ
  url : String
  method : String
  status : ℤ
  success : Bool
  response_time_ms : ℚ
  blocked_ms : Option ℚ
  connecting_ms : Option ℚ
  receiving_ms : Option ℚ
  sending_ms : Option ℚ
  tls_handshake_ms : Option ℚ
  waiting_ms : Option ℚ
deriving DecidableEq

/-- State of `GlobalMetricsAggregator` (`src/eda/metrics.py`).  The
`collections.Counter` of status codes is modelled as the list of all codes
seen (`status_code_counts.update(col)` appends the column). -/
structure GlobalMetricsAggregator where
  total_requests : ℕ
  success_count : ℕ
  request_status_error : ℕ
  min_timestamp : Option ℚ
  max_timestamp : Option ℚ
  status_code_counts : List ℤ
  sampler_size : ℕ
  response_stats : StreamingStats
  response_sampler : ReservoirSampler
deriving DecidableEq

/-- `GlobalMetricsAggregator.__init__(sampler_size)`. -/
def GlobalMetricsAggregator.init (sampler_size : ℕ) : GlobalMetricsAggregator :=
  { total_requests := 0
    success_count := 0
    request_status_error := 0
    min_timestamp := none
    max_timestamp := none
    status_code_counts := []
    sampler_size := sampler_size
    response_stats := StreamingStats.init
    response_sampler := ReservoirSampler.init sampler_size }

/-- `if self.min_timestamp is None or chunk_min < self.min_timestamp`. -/
def mergeMinTs (cur : Option ℚ) (chunkMin : ℚ) : Option ℚ :=
  match cur with
  | none => some chunkMin
  | some m => if chunkMin < m then some chunkMin else some m

/-- `if self.max_timestamp is None or chunk_max > self.max_timestamp`. -/
def mergeMaxTs (cur : Option ℚ) (chunkMax : ℚ) : Option ℚ :=
  match cur with
  | none => some chunkMax
  | some m => if m < chunkMax then some chunkMax else some m

/-- `df_chunk["timestamp"].min()` over a nonempty chunk (head-seeded fold). -/
def chunkMin (c : List LogRecord) : ℚ :=
  (c.map (·.timestamp)).foldl Min.min ((c.map (·.timestamp)).headD 0)

/-- `df_chunk["timestamp"].max()` over a nonempty chunk (head-seeded fold). -/
def chunkMax (c : List LogRecord) : ℚ :=
  (c.map (·.timestamp)).foldl Max.max ((c.map (·.timestamp)).headD 0)

/-- `GlobalMetricsAggregator.update(df_chunk)`.  `rand c` supplies the value of
`random.randint(0, c - 1)` when the reservoir count has just reached `c`
(the loop `for rt in df_chunk["response_time_ms"]` feeds the Welford
accumulator and the sampler with the same values in the same order). -/
def GlobalMetricsAggregator.update (g : GlobalMetricsAggregator) (rand : ℕ → ℕ)
    (c : List LogRecord) : GlobalMetricsAggregator :=
  if c.isEmpty then g else
  { total_requests := g.total_requests + c.length
    success_count := g.success_count + (c.filter (·.success)).length
    request_status_error := g.request_status_error + (c.filter (fun r => 400 ≤ r.status)).length
    min_timestamp := mergeMinTs g.min_timestamp (chunkMin c)
    max_timestamp := mergeMaxTs g.max_timestamp (chunkMax c)
    status_code_counts := g.status_code_counts ++ c.map (·.status)
    sampler_size := g.sampler_size
    response_stats := (c.map (·.response_time_ms)).foldl StreamingStats.update g.response_stats
    response_sampler := (c.map (·.response_time_ms)).foldl
      (fun sp x => sp.update x (rand (sp.count + 1))) g.response_sampler }

/-- The dict returned by `GlobalMetricsAggregator.get_metrics` when
`total_requests > 0`. -/
structure GlobalMetrics where
  total_requests : ℕ
  success_rate : ℚ
  failure_rate : ℚ
  median_response_time : Option ℚ
  avg_response_time : Option ℚ
  p90_response_time : Option ℚ
  p95_response_time : Option ℚ
  p99_response_time : Option ℚ
  max_response_time : Option ℚ
  min_response_time : Option ℚ
  request_status_error : ℚ
  rps : Option ℚ
  status_2xx : ℚ
  status_3xx : ℚ
  status_4xx : ℚ
  status_5xx : ℚ

/-- `GlobalMetricsAggregator.get_metrics`: the empty dict on zero requests is
modelled as `none`. -/
def GlobalMetricsAggregator.get_metrics (g : GlobalMetricsAggregator) : Option GlobalMetrics :=
  if g.total_requests = 0 then none else
  let duration_sec : ℚ :=
    match g.min_timestamp, g.max_timestamp with
    | some a, some b => b - a
    | _, _ => 0
  some
  { total_requests := g.total_requests
    success_rate := (g.success_count : ℚ) / (g.total_requests : ℚ)
    failure_rate := 1 - (g.success_count : ℚ) / (g.total_requests : ℚ)
    median_response_time := g.response_sampler.percentile 50
    avg_response_time := g.response_stats.avg
    p90_response_time := g.response_sampler.percentile 90
    p95_response_time := g.response_sampler.percentile 95
    p99_response_time := g.response_sampler.percentile 99
    max_response_time := g.response_stats.max
    min_response_time := g.response_stats.min
    request_status_error := (g.request_status_error : ℚ) / (g.total_requests : ℚ)
    rps := if 0 < duration_sec then some ((g.total_requests : ℚ) / duration_sec) else none
    status_2xx := ((g.status_code_counts.filter (fun k => 200 ≤ k ∧ k < 300)).length : ℚ) / (g.total_requests : ℚ)
    status_3xx := ((g.status_code_counts.filter (fun k => 300 ≤ k ∧ k < 400)).length : ℚ) / (g.total_requests : ℚ)
    status_4xx := ((g.status_code_counts.filter (fun k => 400 ≤ k ∧ k < 500)).length : ℚ) / (g.total_requests : ℚ)
    status_5xx := ((g.status_code_counts.filter (fun k => 500 ≤ k ∧ k < 600)).length : ℚ) / (g.total_requests : ℚ) }

/-- Per-url accumulator of `EndpointMetricsAggregator` (the `defaultdict`
value in `src/eda/metrics.py`). -/
structure EndpointStats where
  total_requests : ℕ
  success_count : ℕ
  request_status_error : ℕ
  min_timestamp : Option ℚ
  max_timestamp : Option ℚ
  s200_status_count : ℕ
  s300_status_count : ℕ
  s400_status_count : ℕ
  s500_status_count : ℕ
  response_stats : StreamingStats
  response_sampler : ReservoirSampler
  blocked_ms_stats : StreamingStats
  blocked_ms_sampler : ReservoirSampler
  connecting_ms_stats : StreamingStats
  connecting_ms_sampler : ReservoirSampler
  receiving_ms_stats : StreamingStats
  receiving_ms_sampler : ReservoirSampler
  sending_ms_stats : StreamingStats
  sending_ms_sampler : ReservoirSampler
  tls_handshake_ms_stats : StreamingStats
  tls_handshake_ms_sampler : ReservoirSampler
  waiting_ms_stats : StreamingStats
  waiting_ms_sampler : ReservoirSampler
deriving DecidableEq

/-- The fresh `defaultdict` entry. -/
def EndpointStats.init (sampler_size : ℕ) : EndpointStats :=
  { total_requests := 0
    success_count := 0
    request_status_error := 0
    min_timestamp := none
    max_timestamp := none
    s200_status_count := 0
    s300_status_count := 0
    s400_status_count := 0
    s500_status_count := 0
    response_stats := StreamingStats.init
    response_sampler := ReservoirSampler.init sampler_size
    blocked_ms_stats := StreamingStats.init
    blocked_ms_sampler := ReservoirSampler.init sampler_size
    connecting_ms_stats := StreamingStats.init
    connecting_ms_sampler := ReservoirSampler.init sampler_size
    receiving_ms_stats := StreamingStats.init
    receiving_ms_sampler := ReservoirSampler.init sampler_size
    sending_ms_stats := StreamingStats.init
    sending_ms_sampler := ReservoirSampler.init sampler_size
    tls_handshake_ms_stats := StreamingStats.init
    tls_handshake_ms_sampler := ReservoirSampler.init sampler_size
    waiting_ms_stats := StreamingStats.init
    waiting_ms_sampler := ReservoirSampler.init sampler_size }

/-- Feed one latency column of a group into its Welford/sampler pair
(`values = group[col].dropna().values` followed by the update loop). -/
def feedPair (vals : List ℚ) (rand : ℕ → ℕ) (st : StreamingStats)
    (sp : ReservoirSampler) : StreamingStats × ReservoirSampler :=
  (vals.foldl StreamingStats.update st,
   vals.foldl (fun s x => s.update x (rand (s.count + 1))) sp)

/-- The body of the `for url, group in grouped` loop of
`EndpointMetricsAggregator.update` for one group. -/
def EndpointStats.updateGroup (st : EndpointStats) (rand : ℕ → ℕ)
    (group : List LogRecord) : EndpointStats :=
  let respPair := feedPair (group.map (·.response_time_ms)) rand st.response_stats st.response_sampler
  let blockedPair := feedPair (group.filterMap (·.blocked_ms)) rand st.blocked_ms_stats st.blocked_ms_sampler
  let connectingPair := feedPair (group.filterMap (·.connecting_ms)) rand st.connecting_ms_stats st.connecting_ms_sampler
  let receivingPair := feedPair (group.filterMap (·.receiving_ms)) rand st.receiving_ms_stats st.receiving_ms_sampler
  let sendingPair := feedPair (group.filterMap (·.sending_ms)) rand st.sending_ms_stats st.sending_ms_sampler
  let tlsPair := feedPair (group.filterMap (·.tls_handshake_ms)) rand st.tls_handshake_ms_stats st.tls_handshake_ms_sampler
  let waitingPair := feedPair (group.filterMap (·.waiting_ms)) rand st.waiting_ms_stats st.waiting_ms_sampler
  { total_requests := st.total_requests + group.length
    success_count := st.success_count + (group.filter (·.success)).length
    request_status_error := st.request_status_error + (group.filter (fun r => 400 ≤ r.status)).length
    min_timestamp := mergeMinTs st.min_timestamp (chunkMin group)
    max_timestamp := mergeMaxTs st.max_timestamp (chunkMax group)
    s200_status_count := st.s200_status_count + (group.filter (fun r => 200 ≤ r.status ∧ r.status < 300)).length
    s300_status_count := st.s300_status_count + (group.filter (fun r => 300 ≤ r.status ∧ r.status < 400)).length
    s400_status_count := st.s400_status_count + (group.filter (fun r => 400 ≤ r.status ∧ r.status < 500)).length
    s500_status_count := st.s500_status_count + (group.filter (fun r => 500 ≤ r.status ∧ r.status < 600)).length
    response_stats := respPair.1
    response_sampler := respPair.2
    blocked_ms_stats := blockedPair.1
    blocked_ms_sampler := blockedPair.2
    connecting_ms_stats := connectingPair.1
    connecting_ms_sampler := connectingPair.2
    receiving_ms_stats := receivingPair.1
    receiving_ms_sampler := receivingPair.2
    sending_ms_stats := sendingPair.1
    sending_ms_sampler := sendingPair.2
    tls_handshake_ms_stats := tlsPair.1
    tls_handshake_ms_sampler := tlsPair.2
    waiting_ms_stats := waitingPair.1
    waiting_ms_sampler := waitingPair.2 }

/-- State of `EndpointMetricsAggregator`: the `defaultdict` is an
insertion-ordered association list. -/
structure EndpointMetricsAggregator where
  sampler_size : ℕ
  data : List (String × EndpointStats)
deriving DecidableEq

/-- `EndpointMetricsAggregator.__init__(sampler_size)`. -/
def EndpointMetricsAggregator.init (sampler_size : ℕ) : EndpointMetricsAggregator :=
  { sampler_size := sampler_size, data := [] }

/-- Write back the accumulator of `url`, inserting it on first sight
(`defaultdict` behaviour). -/
def upsertStats (data : List (String × EndpointStats)) (url : String)
    (st : EndpointStats) : List (String × EndpointStats) :=
  if (data.lookup url).isSome then
    data.map (fun p => if p.1 = url then (url, st) else p)
  else data ++ [(url, st)]

/-- `EndpointMetricsAggregator.update(df_chunk)`: group the chunk by `url`
(`groupby` keeps the rows of each group in chunk order) and run the group
body on each group's accumulator. -/
def EndpointMetricsAggregator.update (a : EndpointMetricsAggregator) (rand : ℕ → ℕ)
    (c : List LogRecord) : EndpointMetricsAggregator :=
  if c.isEmpty then a else
  { sampler_size := a.sampler_size
    data := ((c.map (·.url)).dedup).foldl
      (fun data url =>
        let group := c.filter (·.url = url)
        let st := (data.lookup url).getD (EndpointStats.init a.sampler_size)
        upsertStats data url (st.updateGroup rand group))
      a.data }

/-- One entry of the list returned by `EndpointMetricsAggregator.get_metrics`. -/
structure EndpointMetrics where
  url : String
  total_requests : ℕ
  success_rate : ℚ
  failure_rate : ℚ
  median_response_time : Option ℚ
  avg_response_time : Option ℚ
  p90_response_time : Option ℚ
  p95_response_time : Option ℚ
  p99_response_time : Option ℚ
  min_response_time : Option ℚ
  max_response_time : Option ℚ
  tail_latency_gap : Option ℚ
  request_status_error : ℚ
  blocked_ms : Option ℚ
  connecting_ms : Option ℚ
  receiving_ms : Option ℚ
  sending_ms : Option ℚ
  tls_handshake_ms : Option ℚ
  waiting_ms : Option ℚ
  rps : Option ℚ
  status_2xx : ℚ
  status_3xx : ℚ
  status_4xx : ℚ
  status_5xx : ℚ

/-- `EndpointMetricsAggregator.get_metrics`: one entry per url whose
accumulator has seen at least one request. -/
def EndpointMetricsAggregator.get_metrics (a : EndpointMetricsAggregator) : List EndpointMetrics :=
  a.data.filterMap (fun p =>
    let st := p.2
    if st.total_requests = 0 then none else
    let duration : ℚ :=
      match st.min_timestamp, st.max_timestamp with
      | some x, some y => y - x
      | _, _ => 0
    let p90 := st.response_sampler.percentile 90
    let p50 := st.response_sampler.percentile 50
    some
    { url := p.1
      total_requests := st.total_requests
      success_rate := (st.success_count : ℚ) / (st.total_requests : ℚ)
      failure_rate := 1 - (st.success_count : ℚ) / (st.total_requests : ℚ)
      median_response_time := p50
      avg_response_time := st.response_stats.avg
      p90_response_time := p90
      p95_response_time := st.response_sampler.percentile 95
      p99_response_time := st.response_sampler.percentile 99
      min_response_time := st.response_stats.min
      max_response_time := st.response_stats.max
      tail_latency_gap :=
        match p90, p50 with
        | some a9, some a5 => some (a9 - a5)
        | _, _ => none
      request_status_error := (st.request_status_error : ℚ) / (st.total_requests : ℚ)
      blocked_ms := st.blocked_ms_stats.avg
      connecting_ms := st.connecting_ms_stats.avg
      receiving_ms := st.receiving_ms_stats.avg
      sending_ms := st.sending_ms_stats.avg
      tls_handshake_ms := st.tls_handshake_ms_stats.avg
      waiting_ms := st.waiting_ms_stats.avg
      rps := if 0 < duration then some ((st.total_requests : ℚ) / duration) else none
      status_2xx := (st.s200_status_count : ℚ) / (st.total_requests : ℚ)
      status_3xx := (st.s300_status_count : ℚ) / (st.total_requests : ℚ)
      status_4xx := (st.s400_status_count : ℚ) / (st.total_requests : ℚ)
      status_5xx := (st.s500_status_count : ℚ) / (st.total_requests : ℚ) })

/- ================================================================
   src/ingestion/schema.py
   ================================================================ -/

/-- `metrics_of_interest` from `src/ingestion/schema.py`. -/
def metrics_of_interest : List String :=
  ["http_req_duration", "http_req_blocked", "http_req_connecting",
   "http_req_tls_handshaking", "http_req_sending", "http_req_waiting",
   "http_req_receiving", "http_req_failed", "http_reqs"]

/-- `url_mappings` from `src/ingestion/schema.py`. -/
def url_mappings : List (String × String) :=
  [("home", "https://test.k6.io/"),
   ("news", "https://test.k6.io/news.php"),
   ("contact", "https://test.k6.io/contact.php"),
   ("login", "https://test.k6.io/login.php")]

/- ================================================================
   src/ingestion/common_functions.py  and  src/ingestion/k6_json_ingestor.py
   ================================================================ -/

/-- One raw (pre-pivot) dataframe row.  The tag columns are `Option` because
`tags.get(...)` can yield `None`; `pd.to_datetime(data.get("time"))` is
modelled as a rational instant. -/
structure RawRow where
  timestamp : ℚ
  metric_name : String
  metric_value : ℚ
  name : Option String
  method : Option String
  url : Option String
  status : Option String
deriving DecidableEq

/-- The composite key of `pivot_table(index=["timestamp", "name", "method",
"url", "status"], ...)`.  `pivot_table` drops a row whose index has a null
component, hence the `Option` result. -/
def RawRow.pivotKey (r : RawRow) : Option (ℚ × String × String × String × String) :=
  match r.name, r.method, r.url, r.status with
  | some n, some m, some u, some s => some (r.timestamp, n, m, u, s)
  | _, _, _, _ => none

/-- `aggfunc="first"`: the first value of `metric` among the rows of a group. -/
def firstMetricValue (group : List RawRow) (metric : String) : Option ℚ :=
  ((group.filter (·.metric_name = metric)).head?).map (·.metric_value)

/-- One row of the pivoted dataframe returned by `to_pivot_df`: the index
columns, the renamed latency columns (via `rename_map`), the derived
`success`, and `url` after `df_pivot["url"].map(url_mappings)` — whose result
is `none` (NaN) for a url absent from the mapping.  `http_req_failed` and
`http_reqs` are consumed/dropped and do not appear. -/
structure CanonicalRecord where
  timestamp : ℚ
  name : String
  method : String
  url : Option String
  status : String
  success : Option Bool
  response_time_ms : Option ℚ
  blocked_ms : Option ℚ
  connecting_ms : Option ℚ
  tls_handshake_ms : Option ℚ
  sending_ms : Option ℚ
  waiting_ms : Option ℚ
  receiving_ms : Option ℚ
deriving DecidableEq

/-- `to_pivot_df` from `src/ingestion/common_functions.py`.
Groups are the distinct pivot keys of the rows that keep all index columns
(in first-appearance order; `pivot_table` sorts the index, which only permutes
the rows).  The `success` column exists exactly when the pivoted frame has an
`http_req_failed` column, i.e. when some surviving row carries that metric;
inside a group without the metric the NaN satisfies `NaN == 0 → False`. -/
def to_pivot_df (df : List RawRow) : List CanonicalRecord :=
  if df = [] then [] else
  let rows := df.filter (fun r => r.pivotKey.isSome)
  let keys := (rows.filterMap (·.pivotKey)).dedup
  let hasFailedCol := rows.any (·.metric_name = "http_req_failed")
  keys.map (fun k =>
    let group := rows.filter (·.pivotKey = some k)
    { timestamp := k.1
      name := k.2.1
      method := k.2.2.1
      url := url_mappings.lookup k.2.2.2.1
      status := k.2.2.2.2
      success :=
        if hasFailedCol then some (firstMetricValue group "http_req_failed" = some 0)
        else none
      response_time_ms := firstMetricValue group "http_req_duration"
      blocked_ms := firstMetricValue group "http_req_blocked"
      connecting_ms := firstMetricValue group "http_req_connecting"
      tls_handshake_ms := firstMetricValue group "http_req_tls_handshaking"
      sending_ms := firstMetricValue group "http_req_sending"
      waiting_ms := firstMetricValue group "http_req_waiting"
      receiving_ms := firstMetricValue group "http_req_receiving" })

/-- A parsed K6 JSON line, with `data`/`data.tags` flattened: `type` and
`metric` are `obj.get(...)` results, `time` is the parsed instant and `value`
the metric value. -/
structure K6Point where
  type_tag : Option String
  metric : Option String
  time : ℚ
  value : ℚ
  name : Option String
  method : Option String
  url : Option String
  status : Option String
deriving DecidableEq

/-- One input line as seen by `process_chunk`: `none` is a line on which
`json.loads` raises `JSONDecodeError`. -/
abbrev K6Line : Type := Option K6Point

/-- `metric in metrics_of_interest` for an optional tag (`None in [...]` is
false in Python). -/
def metricOfInterest (m : Option String) : Bool :=
  match m with
  | some s => metrics_of_interest.contains s
  | none => false

/-- `process_chunk` from `src/ingestion/k6_json_ingestor.py`: skip unparsable
lines, keep only `type == "Point"` rows whose `metric` is of interest, and
build the raw rows in order. -/
def process_chunk : List K6Line → List RawRow
  | [] => []
  | (none : Option K6Point) :: rest => process_chunk rest
  | (some obj : Option K6Point) :: rest =>
    if obj.type_tag ≠ some "Point" then process_chunk rest
    else if metricOfInterest obj.metric = false then process_chunk rest
    else
      { timestamp := obj.time
        metric_name := obj.metric.getD ""
        metric_value := obj.value
        name := obj.name
        method := obj.method
        url := obj.url
        status := obj.status } :: process_chunk rest

/-- The buffered line loop of `normalizer_k6_json`: append each line to the
buffer, emit the buffer once it holds `chunk_size` lines, and emit the
non-empty leftover at EOF. -/
def chunkStep (n : ℕ) : List K6Line → List K6Line → List (List K6Line)
  | buf, [] => if buf.isEmpty then [] else [buf]
  | buf, l :: ls =>
    if (buf ++ [l]).length = n then (buf ++ [l]) :: chunkStep n [] ls
    else chunkStep n (buf ++ [l]) ls

/-- The batches produced by the line loop for a whole file. -/
def chunksOf (n : ℕ) (l : List K6Line) : List (List K6Line) :=
  chunkStep n [] l

/-- `normalizer_k6_json` from `src/ingestion/k6_json_ingestor.py`, as the list
of all yielded records: each buffered chunk is parsed and pivoted on its own
(empty pivots are skipped by the generator, which does not change the
concatenation). -/
def normalizer_k6_json (lines : List K6Line) (chunk_size : ℕ) : List CanonicalRecord :=
  ((chunksOf chunk_size lines).map (fun c => to_pivot_df (process_chunk c))).flatten

/- ================================================================
   src/app/models/jobs.py  and  src/app/services/job_service.py
   ================================================================ -/

/-- `JobStatus` from `src/app/models/jobs.py`. -/
inductive JobStatus where
  | pending
  | in_progress
  | completed
  | failed
deriving DecidableEq

/-- `JobType` from `src/app/models/jobs.py`. -/
inductive JobType where
  | ingestion
  | analysis
  | qa
deriving DecidableEq

/-- The `jobs` table row (`src/app/models/jobs.py`).  Timestamps are
rationals; `result_data` is a JSONB blob modelled as a key/value list. -/
structure Job where
  job_type : JobType
  status : JobStatus
  created_at : ℚ
  started_at : Option ℚ
  finished_at : Option ℚ
  ingestion_job_id : Option ℕ
  file_id : Option String
  report_id : Option String
  result_data : Option (List (String × String))
  error_details : Option String
  retry_count : ℕ
  can_retry : Bool
deriving DecidableEq

/-- Python truthiness of an optional string: `None` and `""` are falsy. -/
def truthyStr (s : Option String) : Bool :=
  match s with
  | none => false
  | some v => ¬ v.isEmpty

/-- Python truthiness of an optional dict: `None` and `{}` are falsy. -/
def truthyDict (d : Option (List (String × String))) : Bool :=
  match d with
  | none => false
  | some v => ¬ v.isEmpty

/-- `JobService.update_job_status` applied to the looked-up job
(`src/app/services/job_service.py`): `status` is always overwritten; each other
field is overwritten only when its argument is truthy (`if started_at:` etc.),
and a truthy `error_details` also sets `can_retry = True`. -/
def JobService.update_job_status (job? : Option Job) (status : JobStatus)
    (started_at finished_at : Option ℚ) (error_details : Option String)
    (result_data : Option (List (String × String))) : Except String Job :=
  match job? with
  | none => .error "Job not found"
  | some job =>
    .ok { job with
          status := status
          started_at := if started_at.isSome then started_at else job.started_at
          finished_at := if finished_at.isSome then finished_at else job.finished_at
          error_details := if truthyStr error_details then error_details else job.error_details
          can_retry := if truthyStr error_details then true else job.can_retry
          result_data := if truthyDict result_data then result_data else job.result_data }

/-- `JobService.retry_job` applied to the looked-up job
(`src/app/services/job_service.py`). -/
def JobService.retry_job (job? : Option Job) (force_retry : Bool) : Except String Job :=
  match job? with
  | none => .error "Job not found"
  | some job =>
    if ¬ force_retry ∧ ¬ job.can_retry then .error "Job cannot be retried"
    else if ¬ force_retry ∧ job.status ≠ JobStatus.failed then
      .error "Only failed jobs can be retried"
    else
      .ok { job with
            status := JobStatus.pending
            retry_count := job.retry_count + 1
            error_details := none
            started_at := none
            finished_at := none }

/-- The `POST /jobs/{job_id}/retry` handler (`src/app/api/routers/jobs.py`):
it parses a `JobRetryRequest` body but calls `job_service.retry_job(job_id)`
without forwarding `request.force_retry`, so the service always runs with
`force_retry=False`. -/
def retry_job_route (job? : Option Job) (request_force_retry : Bool) : Except String Job :=
  JobService.retry_job job? false

/- ================================================================
   src/app/api/routers/upload.py  and  src/app/services/ingestion_service.py
   (control-plane state)
   ================================================================ -/

/-- The `ingestion_jobs` table row (`src/app/models/ingestion_job.py`). -/
structure IngestionJob where
  id : ℕ
  file_id : String
  status : String
  rows_ingested : Option ℕ
  total_rows : Option ℕ
  started_at : Option ℚ
  finished_at : Option ℚ
  error_details : Option String
deriving DecidableEq

/-- A persisted request-log row (`src/app/models/request_logs.py` /
`src/app/models/request_logs_staging.py`), keyed by its `job_id`. -/
structure DbLogRow where
  job_id : ℕ
  timestamp : ℚ
  url : String
  method : String
  status_code : ℤ
  success : Bool
  response_time_ms : ℚ
deriving DecidableEq

/-- The relational store: the two log tables, the ingestion-job table, the
orchestration `jobs` table (rows keyed by id) and the broker queue of
`process_file_ingestion` messages `(job_id, ingestion_job_id, file_id)`. -/
structure Db where
  request_logs : List DbLogRow
  request_logs_staging : List DbLogRow
  ingestion_jobs : List IngestionJob
  jobs : List (ℕ × Job)
  queue : List (ℕ × ℕ × String)
deriving DecidableEq

/-- Overwrite the fields of the ingestion-job row `id` with `f` (the
`update(IngestionJob).where(id == ...)` statement). -/
def Db.setIngestionJob (db : Db) (id : ℕ) (f : IngestionJob → IngestionJob) : Db :=
  { db with ingestion_jobs := db.ingestion_jobs.map (fun j => if j.id = id then f j else j) }

/-- `JobService.update_job_status` lifted to the `jobs` table: look the row up
by id, raising when absent, and commit the updated row. -/
def Db.update_job_status (db : Db) (job_id : ℕ) (status : JobStatus)
    (started_at finished_at : Option ℚ) (error_details : Option String)
    (result_data : Option (List (String × String))) : Except String Db :=
  match JobService.update_job_status (db.jobs.lookup job_id) status started_at
      finished_at error_details result_data with
  | .error e => .error e
  | .ok j' =>
    .ok { db with jobs := db.jobs.map (fun p => if p.1 = job_id then (job_id, j') else p) }

/-- `upload_file` from `src/app/api/routers/upload.py`.
`save_upload_file` commits an ingestion-job row (status `pending`), then
`create_job` commits a `jobs` row (status `pending`), then
`process_file_ingestion.delay(...)` enqueues the task; `enqueue_ok = false`
models a broker failure on `.delay`, which the handler turns into a 500
without touching either committed row.  Autoincremented ids are modelled as
the current table lengths. -/
def upload_file (db : Db) (file_id : String) (created_at : ℚ) (enqueue_ok : Bool) :
    Except String (ℕ × Db) :=
  let ingestion_job_id := db.ingestion_jobs.length
  let db1 := { db with ingestion_jobs := db.ingestion_jobs ++
    [({ id := ingestion_job_id
        file_id := file_id
        status := "pending"
        rows_ingested := some 0
        total_rows := some 0
        started_at := none
        finished_at := none
        error_details := none } : IngestionJob)] }
  let job_id := db1.jobs.length
  let db2 := { db1 with jobs := db1.jobs ++
    [((job_id,
      { job_type := JobType.ingestion
        status := JobStatus.pending
        created_at := created_at
        started_at := none
        finished_at := none
        ingestion_job_id := some ingestion_job_id
        file_id := some file_id
        report_id := none
        result_data := none
        error_details := none
        retry_count := 0
        can_retry := true }) : ℕ × Job)] }
  if enqueue_ok then
    .ok (job_id, { db2 with queue := db2.queue ++ [(job_id, ingestion_job_id, file_id)] })
  else
    .error "HTTP 500: broker unavailable"

/-- The state of the database after a failed `upload_file` call: the handler
re-raises inside `except`, leaving the two committed rows untouched. -/
def upload_file_state (db : Db) (file_id : String) (created_at : ℚ) (enqueue_ok : Bool) : Db :=
  match upload_file db file_id created_at enqueue_ok with
  | .ok r => r.2
  | .error _ =>
    let ingestion_job_id := db.ingestion_jobs.length
    let db1 := { db with ingestion_jobs := db.ingestion_jobs ++
      [({ id := ingestion_job_id
          file_id := file_id
          status := "pending"
          rows_ingested := some 0
          total_rows := some 0
          started_at := none
          finished_at := none
          error_details := none } : IngestionJob)] }
    { db1 with jobs := db1.jobs ++
      [((db1.jobs.length,
        { job_type := JobType.ingestion
          status := JobStatus.pending
          created_at := created_at
          started_at := none
          finished_at := none
          ingestion_job_id := some ingestion_job_id
          file_id := some file_id
          report_id := none
          result_data := none
          error_details := none
          retry_count := 0
          can_retry := true }) : ℕ × Job)] }

/- ================================================================
   src/workers/tasks/ingestion_tasks.py  and the staging write path
   ================================================================ -/

/-- Tag a pivoted row with the owning job id before staging it. -/
def tagRow (ingestion_job_id : ℕ) (r : DbLogRow) : DbLogRow :=
  { r with job_id := ingestion_job_id }

/-- Modelled from the spec: `IngestionService.ingest_file_to_db_with_staging`
is called by `_process_file_ingestion_async`
(`src/workers/tasks/ingestion_tasks.py`) but is absent from the source tree
(only the `request_logs_staging` model exists).  Per §4.F: each pivoted batch
is inserted into `request_logs_staging` tagged with the job id; on clean EOF a
single transactional promotion copies the job's staging rows into
`request_logs`, deletes them from staging, and updates the ingestion-job row
with `rows_ingested`, `total_rows`, `started_at`, `finished_at` and
`status="completed"`; on any failure a rollback removes the staging rows and
the ingestion-job row is set to `status="failed"` with `error_details` (and
`finished_at`, as in the visible sibling `ingest_file_to_db`).
`failAfter = some k` injects a failure once `k` chunks have been staged;
`t0`/`t1` are the wall-clock instants taken for `started_at`/`finished_at`.
The result pairs the new database state with the raised error, if any.
The function is split over the next three definitions; this one is the clean
EOF path: stage every chunk, then promote in one transaction. -/
def ingestSuccessDb (db : Db) (ingestion_job_id : ℕ) (chunks : List (List DbLogRow))
    (t0 t1 : ℚ) : Db :=
  let staged := db.request_logs_staging ++ chunks.flatten.map (tagRow ingestion_job_id)
  let promoted := staged.filter (fun r => r.job_id = ingestion_job_id)
  let db' :=
    { db with
      request_logs := db.request_logs ++ promoted
      request_logs_staging := staged.filter (fun r => ¬ r.job_id = ingestion_job_id) }
  db'.setIngestionJob ingestion_job_id (fun j =>
    { j with
      status := "completed"
      rows_ingested := some promoted.length
      total_rows := some promoted.length
      started_at := some t0
      finished_at := some t1 })

/-- The failure path of the staged ingestion: the rollback removes the job's
staging rows and the ingestion-job row is marked failed. -/
def ingestFailureDb (db : Db) (ingestion_job_id : ℕ) (chunks : List (List DbLogRow))
    (k : ℕ) (t1 : ℚ) : Db :=
  let staged := db.request_logs_staging ++ ((chunks.take k).flatten).map (tagRow ingestion_job_id)
  let db' :=
    { db with
      request_logs_staging := staged.filter (fun r => ¬ r.job_id = ingestion_job_id) }
  db'.setIngestionJob ingestion_job_id (fun j =>
    { j with
      status := "failed"
      error_details := some "ingestion failed"
      finished_at := some t1 })

/-- The dispatch between the two paths: `failAfter = none` is a clean EOF,
`failAfter = some k` a failure once `k` chunks are staged. -/
def ingest_file_to_db_with_staging (db : Db) (ingestion_job_id : ℕ)
    (chunks : List (List DbLogRow)) (failAfter : Option ℕ) (t0 t1 : ℚ) :
    Db × Option String :=
  match failAfter with
  | none => (ingestSuccessDb db ingestion_job_id chunks t0 t1, none)
  | some k => (ingestFailureDb db ingestion_job_id chunks k t1, some "ingestion failed")

/-- `_process_file_ingestion_async` from
`src/workers/tasks/ingestion_tasks.py`: transition the orchestration job to
`in_progress` with `started_at`, run the staged ingestion, then transition to
`completed` with `finished_at` and a result blob — or, in the `except` block,
to `failed` with `finished_at` and `error_details = str(e)` before re-raising.
The returned `Option String` is the exception propagated to Celery. -/
def process_file_ingestion (db : Db) (job_id ingestion_job_id : ℕ)
    (chunks : List (List DbLogRow)) (failAfter : Option ℕ) (t0 t1 : ℚ) :
    Db × Option String :=
  match db.update_job_status job_id JobStatus.in_progress (some t0) none none none with
  | .error e => (db, some e)
  | .ok db1 =>
    match ingest_file_to_db_with_staging db1 ingestion_job_id chunks failAfter t0 t1 with
    | (db2, some e) =>
      match db2.update_job_status job_id JobStatus.failed none (some t1) (some e) none with
      | .error e2 => (db2, some e2)
      | .ok db3 => (db3, some e)
    | (db2, none) =>
      match db2.update_job_status job_id JobStatus.completed none (some t1) none
          (some [("message", "Ingestion completed successfully")]) with
      | .error e2 =>
        match db2.update_job_status job_id JobStatus.failed none (some t1) (some e2) none with
        | .error e3 => (db2, some e3)
        | .ok db3 => (db3, some e2)
      | .ok db3 => (db3, none)

/- ================================================================
   Percentile lemmas
   ================================================================ -/

/-- The computable `Rat.floor` agrees with `Int.floor`. -/
theorem ratFloor_eq_intFloor (q : ℚ) : Rat.floor q = ⌊q⌋ := by
  rw [Rat.floor_def' q, Rat.floor_def]

/-- The interpolation used by `npPercentile` at an abstract rank `h`. -/
def interpAt (s : List ℚ) (h : ℚ) : ℚ :=
  let i := (Rat.floor h).toNat
  let g := h - (i : ℚ)
  s.getD i 0 + g * (s.getD (Min.min (i + 1) (s.length - 1)) 0 - s.getD i 0)

theorem npPercentile_eq_interpAt (l : List ℚ) (p : ℚ) :
    npPercentile l p =
      interpAt (List.insertionSort (· ≤ ·) l)
        (p * (((List.insertionSort (· ≤ ·) l).length : ℚ) - 1) / 100) := rfl

/-- Access into a `(· ≤ ·)`-sorted list is monotone in the index. -/
theorem getD_sorted_mono (s : List ℚ) (hs : List.Sorted (· ≤ ·) s) {a b : ℕ}
    (hab : a ≤ b) (hb : b < s.length) : s.getD a 0 ≤ s.getD b 0 := by
  have ha : a < s.length := lt_of_le_of_lt hab hb
  rw [s.getD_eq_getElem 0 ha, s.getD_eq_getElem 0 hb]
  rcases eq_or_lt_of_le hab with rfl | hlt
  · exact le_refl _
  · exact List.Sorted.rel_get_of_lt hs hlt

/-- An in-range `getD` is a member. -/
theorem getD_mem (s : List ℚ) {k : ℕ} (hk : k < s.length) : s.getD k 0 ∈ s := by
  rw [s.getD_eq_getElem 0 hk]
  exact s.getElem_mem hk

/-- `interpAt` is monotone in the rank within the valid range. -/
theorem interpAt_mono (s : List ℚ) (hs : List.Sorted (· ≤ ·) s) (hne : s ≠ [])
    {h₁ h₂ : ℚ} (h0 : 0 ≤ h₁) (h12 : h₁ ≤ h₂) (hup : h₂ ≤ (s.length : ℚ) - 1) :
    interpAt s h₁ ≤ interpAt s h₂ := by
  have hn : 1 ≤ s.length := List.length_pos.mpr hne
  have h0' : 0 ≤ h₂ := le_trans h0 h12
  have hf1 : (0 : ℤ) ≤ Rat.floor h₁ := by
    rw [ratFloor_eq_intFloor]; exact Int.floor_nonneg.mpr h0
  have hf2 : (0 : ℤ) ≤ Rat.floor h₂ := by
    rw [ratFloor_eq_intFloor]; exact Int.floor_nonneg.mpr h0'
  set i₁ := (Rat.floor h₁).toNat with hi₁
  set i₂ := (Rat.floor h₂).toNat with hi₂
  have hcast1 : ((i₁ : ℤ) : ℚ) = ((Rat.floor h₁ : ℤ) : ℚ) := by
    rw [hi₁, Int.toNat_of_nonneg hf1]
  have hcast2 : ((i₂ : ℤ) : ℚ) = ((Rat.floor h₂ : ℤ) : ℚ) := by
    rw [hi₂, Int.toNat_of_nonneg hf2]
  have hile1 : (i₁ : ℚ) ≤ h₁ := by
    have := Int.floor_le h₁
    rw [ratFloor_eq_intFloor] at hcast1
    push_cast at hcast1
    rw [hcast1]
    exact this
  have hile2 : (i₂ : ℚ) ≤ h₂ := by
    have := Int.floor_le h₂
    rw [ratFloor_eq_intFloor] at hcast2
    push_cast at hcast2
    rw [hcast2]
    exact this
  have hlt1 : h₁ < (i₁ : ℚ) + 1 := by
    have := Int.lt_floor_add_one h₁
    rw [ratFloor_eq_intFloor] at hcast1
    push_cast at hcast1
    rw [hcast1]
    exact this
  have hlt2 : h₂ < (i₂ : ℚ) + 1 := by
    have := Int.lt_floor_add_one h₂
    rw [ratFloor_eq_intFloor] at hcast2
    push_cast at hcast2
    rw [hcast2]
    exact this
  have hii : i₁ ≤ i₂ := by
    rw [hi₁, hi₂]
    exact Int.toNat_le_toNat (by rw [ratFloor_eq_intFloor, ratFloor_eq_intFloor]; exact Int.floor_mono h12)
  have hi₂n : i₂ ≤ s.length - 1 := by
    have : (i₂ : ℚ) ≤ (s.length : ℚ) - 1 := le_trans hile2 hup
    have h1 : (i₂ : ℚ) + 1 ≤ (s.length : ℚ) := by linarith
    have h2 : i₂ + 1 ≤ s.length := by exact_mod_cast h1
    omega
  have hi₁n : i₁ < s.length := by omega
  have hi₂n' : i₂ < s.length := by omega
  have hminn1 : Min.min (i₁ + 1) (s.length - 1) < s.length := by omega
  have hminn2 : Min.min (i₂ + 1) (s.length - 1) < s.length := by omega
  have hA1B1 : s.getD i₁ 0 ≤ s.getD (Min.min (i₁ + 1) (s.length - 1)) 0 :=
    getD_sorted_mono s hs (by omega) hminn1
  have hA2B2 : s.getD i₂ 0 ≤ s.getD (Min.min (i₂ + 1) (s.length - 1)) 0 :=
    getD_sorted_mono s hs (by omega) hminn2
  have hg1 : 0 ≤ h₁ - (i₁ : ℚ) := by linarith
  have hg2 : 0 ≤ h₂ - (i₂ : ℚ) := by linarith
  have hg1' : h₁ - (i₁ : ℚ) ≤ 1 := by linarith
  rcases eq_or_lt_of_le hii with heq | hlt
  · show s.getD i₁ 0 + (h₁ - (i₁ : ℚ)) * (s.getD (Min.min (i₁ + 1) (s.length - 1)) 0 - s.getD i₁ 0) ≤
      s.getD i₂ 0 + (h₂ - (i₂ : ℚ)) * (s.getD (Min.min (i₂ + 1) (s.length - 1)) 0 - s.getD i₂ 0)
    rw [← heq]
    have hgg : h₁ - (i₁ : ℚ) ≤ h₂ - (i₁ : ℚ) := by linarith
    nlinarith [hA1B1]
  · show s.getD i₁ 0 + (h₁ - (i₁ : ℚ)) * (s.getD (Min.min (i₁ + 1) (s.length - 1)) 0 - s.getD i₁ 0) ≤
      s.getD i₂ 0 + (h₂ - (i₂ : ℚ)) * (s.getD (Min.min (i₂ + 1) (s.length - 1)) 0 - s.getD i₂ 0)
    have hstep1 : s.getD i₁ 0 + (h₁ - (i₁ : ℚ)) * (s.getD (Min.min (i₁ + 1) (s.length - 1)) 0 - s.getD i₁ 0) ≤
        s.getD (Min.min (i₁ + 1) (s.length - 1)) 0 := by nlinarith [hA1B1]
    have hmid : s.getD (Min.min (i₁ + 1) (s.length - 1)) 0 ≤ s.getD i₂ 0 :=
      getD_sorted_mono s hs (by omega) hi₂n'
    have hstep2 : s.getD i₂ 0 ≤
        s.getD i₂ 0 + (h₂ - (i₂ : ℚ)) * (s.getD (Min.min (i₂ + 1) (s.length - 1)) 0 - s.getD i₂ 0) := by
      nlinarith [hA2B2]
    linarith

/-- Within the valid range, `interpAt` never exceeds the last (largest) entry
of the sorted list. -/
theorem interpAt_le_getLast (s : List ℚ) (hs : List.Sorted (· ≤ ·) s) (hne : s ≠ [])
    {h : ℚ} (h0 : 0 ≤ h) (hup : h ≤ (s.length : ℚ) - 1) :
    interpAt s h ≤ s.getD (s.length - 1) 0 := by
  have hn : 1 ≤ s.length := List.length_pos.mpr hne
  have hf : (0 : ℤ) ≤ Rat.floor h := by
    rw [ratFloor_eq_intFloor]; exact Int.floor_nonneg.mpr h0
  set i := (Rat.floor h).toNat with hi
  have hcast : ((i : ℤ) : ℚ) = ((Rat.floor h : ℤ) : ℚ) := by
    rw [hi, Int.toNat_of_nonneg hf]
  have hile : (i : ℚ) ≤ h := by
    have := Int.floor_le h
    rw [ratFloor_eq_intFloor] at hcast
    push_cast at hcast
    rw [hcast]
    exact this
  have hlt : h < (i : ℚ) + 1 := by
    have := Int.lt_floor_add_one h
    rw [ratFloor_eq_intFloor] at hcast
    push_cast at hcast
    rw [hcast]
    exact this
  have hin : i ≤ s.length - 1 := by
    have h1 : (i : ℚ) ≤ (s.length : ℚ) - 1 := le_trans hile hup
    have h2 : (i : ℚ) + 1 ≤ (s.length : ℚ) := by linarith
    have h3 : i + 1 ≤ s.length := by exact_mod_cast h2
    omega
  have hminn : Min.min (i + 1) (s.length - 1) < s.length := by omega
  have hAB : s.getD i 0 ≤ s.getD (Min.min (i + 1) (s.length - 1)) 0 :=
    getD_sorted_mono s hs (by omega) hminn
  have hBL : s.getD (Min.min (i + 1) (s.length - 1)) 0 ≤ s.getD (s.length - 1) 0 :=
    getD_sorted_mono s hs (by omega) (by omega)
  have hg0 : 0 ≤ h - (i : ℚ) := by linarith
  have hg1 : h - (i : ℚ) ≤ 1 := by linarith
  show s.getD i 0 + (h - (i : ℚ)) * (s.getD (Min.min (i + 1) (s.length - 1)) 0 - s.getD i 0) ≤
      s.getD (s.length - 1) 0
  nlinarith [hAB, hBL]

/-- `np.percentile` is monotone in `p` on a non-empty list. -/
theorem npPercentile_mono (l : List ℚ) (hl : l ≠ []) {p₁ p₂ : ℚ}
    (h0 : 0 ≤ p₁) (h12 : p₁ ≤ p₂) (h100 : p₂ ≤ 100) :
    npPercentile l p₁ ≤ npPercentile l p₂ := by
  have hs : List.Sorted (· ≤ ·) (List.insertionSort (· ≤ ·) l) :=
    List.sorted_insertionSort _ _
  have hperm : (List.insertionSort (· ≤ ·) l).Perm l := List.perm_insertionSort _ _
  have hne : List.insertionSort (· ≤ ·) l ≠ [] := by
    intro hcon
    have hlen := hperm.length_eq
    rw [hcon] at hlen
    exact hl (List.length_eq_zero.mp hlen.symm)
  set s := List.insertionSort (· ≤ ·) l with hsdef
  have hn : 1 ≤ s.length := List.length_pos.mpr hne
  have hnq : (1 : ℚ) ≤ (s.length : ℚ) := by exact_mod_cast hn
  rw [npPercentile_eq_interpAt, npPercentile_eq_interpAt, ← hsdef]
  apply interpAt_mono s hs hne
  · apply div_nonneg ?_ (by norm_num)
    exact mul_nonneg h0 (by linarith)
  · apply div_le_div_of_nonneg_right ?_ (by norm_num)
    exact mul_le_mul_of_nonneg_right h12 (by linarith)
  · rw [div_le_iff (by norm_num : (0:ℚ) < 100)]
    nlinarith
/-- `np.percentile` of a non-empty list is at most any upper bound of the
list, for `p ≤ 100`. -/
theorem npPercentile_le_of_bound (l : List ℚ) (hl : l ≠ []) {p M : ℚ}
    (h0 : 0 ≤ p) (h100 : p ≤ 100) (hM : ∀ y ∈ l, y ≤ M) :
    npPercentile l p ≤ M := by
  have hs : List.Sorted (· ≤ ·) (List.insertionSort (· ≤ ·) l) :=
    List.sorted_insertionSort _ _
  have hperm : (List.insertionSort (· ≤ ·) l).Perm l := List.perm_insertionSort _ _
  have hne : List.insertionSort (· ≤ ·) l ≠ [] := by
    intro hcon
    have hlen := hperm.length_eq
    rw [hcon] at hlen
    exact hl (List.length_eq_zero.mp hlen.symm)
  set s := List.insertionSort (· ≤ ·) l with hsdef
  have hn : 1 ≤ s.length := List.length_pos.mpr hne
  have hnq : (1 : ℚ) ≤ (s.length : ℚ) := by exact_mod_cast hn
  have hlast : s.getD (s.length - 1) 0 ≤ M := by
    apply hM
    exact hperm.mem_iff.mp (getD_mem s (by omega))
  have hle : interpAt s (p * ((s.length : ℚ) - 1) / 100) ≤ s.getD (s.length - 1) 0 := by
    apply interpAt_le_getLast s hs hne
    · apply div_nonneg ?_ (by norm_num)
      exact mul_nonneg h0 (by linarith)
    · rw [div_le_iff (by norm_num : (0:ℚ) < 100)]
      nlinarith
  rw [npPercentile_eq_interpAt, ← hsdef]
  exact le_trans hle hlast

/- ================================================================
   Welford accumulator lemmas
   ================================================================ -/

/-- The accumulator obtained by streaming `vs` into a fresh `StreamingStats`. -/
def statsOf (vs : List ℚ) : StreamingStats :=
  vs.foldl StreamingStats.update StreamingStats.init

theorem statsOf_append (vs ws : List ℚ) :
    statsOf (vs ++ ws) = ws.foldl StreamingStats.update (statsOf vs) := by
  simp [statsOf, List.foldl_append]

theorem update_n (s : StreamingStats) (x : ℚ) : (s.update x).n = s.n + 1 := rfl

/-- The Welford mean recurrence preserves the exact running sum. -/
theorem update_mean_step (s : StreamingStats) (x : ℚ) :
    (s.update x).mean * ((s.n : ℚ) + 1) = s.mean * (s.n : ℚ) + x := by
  have hne : ((s.n : ℚ) + 1) ≠ 0 := by positivity
  show (s.mean + (x - s.mean) / ((s.n + 1 : ℕ) : ℚ)) * ((s.n : ℚ) + 1) = s.mean * (s.n : ℚ) + x
  push_cast
  field_simp
  ring

/-- Streaming a non-empty list gives: `n` the length, the exact mean, and
`min_val`/`max_val` values bounding every streamed element. -/
theorem statsOf_spec (vs : List ℚ) (hvs : vs ≠ []) :
    ∃ a b, (statsOf vs).min_val = some a ∧ (statsOf vs).max_val = some b ∧
      (∀ y ∈ vs, a ≤ y ∧ y ≤ b) ∧ (statsOf vs).n = vs.length ∧
      (statsOf vs).mean * ((vs.length : ℚ)) = vs.sum := by
  induction vs using List.reverseRecOn with
  | nil => exact absurd rfl hvs
  | append_singleton ws x ih =>
    rcases eq_or_ne ws [] with rfl | hws
    · simp only [List.nil_append]
      refine ⟨x, x, rfl, rfl, ?_, rfl, ?_⟩
      · intro y hy
        rw [List.mem_singleton] at hy
        subst hy
        exact ⟨le_refl _, le_refl _⟩
      · have hstep := update_mean_step StreamingStats.init x
        show (StreamingStats.init.update x).mean * (([x].length : ℕ) : ℚ) = [x].sum
        have h0 : ((StreamingStats.init.n : ℕ) : ℚ) = 0 := rfl
        have h1 : StreamingStats.init.mean = 0 := rfl
        rw [h0, h1] at hstep
        simp only [List.length_singleton, List.sum_singleton]
        push_cast
        linarith
    · obtain ⟨a, b, hmin, hmax, hbound, hn, hmean⟩ := ih hws
      rw [statsOf_append ws [x]]
      simp only [List.foldl_cons, List.foldl_nil]
      refine ⟨Min.min a x, Max.max b x, ?_, ?_, ?_, ?_, ?_⟩
      · have h1 : ((statsOf ws).update x).min_val =
            some (match (statsOf ws).min_val with | none => x | some m => Min.min m x) := rfl
        rw [h1, hmin]
      · have h1 : ((statsOf ws).update x).max_val =
            some (match (statsOf ws).max_val with | none => x | some m => Max.max m x) := rfl
        rw [h1, hmax]
      · intro y hy
        rw [List.mem_append, List.mem_singleton] at hy
        rcases hy with hy | rfl
        · obtain ⟨h1, h2⟩ := hbound y hy
          exact ⟨le_trans (min_le_left _ _) h1, le_trans h2 (le_max_left _ _)⟩
        · exact ⟨min_le_right _ _, le_max_right _ _⟩
      · rw [update_n, hn]
        simp
      · have hstep := update_mean_step (statsOf ws) x
        rw [hn, hmean] at hstep
        rw [List.length_append, List.sum_append]
        simp only [List.length_singleton, List.sum_singleton]
        push_cast at hstep ⊢
        linarith

/-- The exact mean lies between any lower and upper bound of the streamed
values. -/
theorem mean_between (vs : List ℚ) (hvs : vs ≠ []) {a b : ℚ}
    (hbound : ∀ y ∈ vs, a ≤ y ∧ y ≤ b)
    (hmean : (statsOf vs).mean * ((vs.length : ℚ)) = vs.sum) :
    a ≤ (statsOf vs).mean ∧ (statsOf vs).mean ≤ b := by
  have hlen : 0 < vs.length := List.length_pos.mpr hvs
  have hlenq : (0 : ℚ) < (vs.length : ℚ) := by exact_mod_cast hlen
  have hlow : a * (vs.length : ℚ) ≤ vs.sum := by
    calc a * (vs.length : ℚ) = (vs.length : ℚ) * a := by ring
    _ = ((vs.length • a : ℚ)) := by rw [nsmul_eq_mul]
    _ ≤ vs.sum := List.card_nsmul_le_sum vs a (fun y hy => (hbound y hy).1)
  have hhigh : vs.sum ≤ b * (vs.length : ℚ) := by
    calc vs.sum ≤ ((vs.length • b : ℚ)) := List.sum_le_card_nsmul vs b (fun y hy => (hbound y hy).2)
    _ = (vs.length : ℚ) * b := by rw [nsmul_eq_mul]
    _ = b * (vs.length : ℚ) := by ring
  constructor
  · have := hmean ▸ hlow
    exact le_of_mul_le_mul_right (by linarith) hlenq
  · have := hmean ▸ hhigh
    exact le_of_mul_le_mul_right (by linarith) hlenq

/- ================================================================
   Reservoir sampler invariants
   ================================================================ -/

theorem sampler_update_mem (sp : ReservoirSampler) (x : ℚ) (idx : ℕ) {y : ℚ}
    (hy : y ∈ (sp.update x idx).sample) : y ∈ sp.sample ∨ y = x := by
  simp only [ReservoirSampler.update] at hy
  split at hy
  · rw [List.mem_append, List.mem_singleton] at hy
    exact hy
  · split at hy
    · rcases List.mem_or_eq_of_mem_set hy with h | h
      · exact Or.inl h
      · exact Or.inr h
    · exact Or.inl hy

theorem sampler_update_ne_nil (sp : ReservoirSampler) (x : ℚ) (idx : ℕ)
    (hK : 0 < sp.size) : (sp.update x idx).sample ≠ [] := by
  simp only [ReservoirSampler.update]
  split
  · exact List.append_ne_nil_of_right_ne_nil _ (by simp)
  · next hfull =>
    have hlen : 0 < sp.sample.length := lt_of_lt_of_le hK (le_of_not_lt hfull)
    split
    · intro hcon
      have hl2 : (sp.sample.set idx x).length = 0 := by rw [hcon]; rfl
      rw [List.length_set] at hl2
      omega
    · intro hcon
      rw [hcon] at hlen
      simp at hlen

/-- Relation between a sampler state and the stream it has consumed: correct
capacity, every buffered value comes from the stream, and the buffer is
non-empty whenever the stream is. -/
def SamplerInv (K : ℕ) (vs : List ℚ) (sp : ReservoirSampler) : Prop :=
  sp.size = K ∧ (∀ y ∈ sp.sample, y ∈ vs) ∧ (vs ≠ [] → sp.sample ≠ [])

theorem samplerInv_init (K : ℕ) : SamplerInv K [] (ReservoirSampler.init K) :=
  ⟨rfl, by intro y hy; simp [ReservoirSampler.init] at hy, by intro h; exact absurd rfl h⟩

theorem samplerInv_step (K : ℕ) (hK : 0 < K) {vs : List ℚ} {sp : ReservoirSampler}
    (hinv : SamplerInv K vs sp) (x : ℚ) (idx : ℕ) :
    SamplerInv K (vs ++ [x]) (sp.update x idx) := by
  obtain ⟨hsize, hmem, hne⟩ := hinv
  refine ⟨hsize, ?_, ?_⟩
  · intro y hy
    rw [List.mem_append, List.mem_singleton]
    rcases sampler_update_mem sp x idx hy with h | h
    · exact Or.inl (hmem y h)
    · exact Or.inr h
  · intro _
    exact sampler_update_ne_nil sp x idx (hsize ▸ hK)

/-- `SamplerInv` is preserved by folding a further stream through `update`,
whatever rule `ι` chooses the random indices by. -/
theorem samplerInv_fold (K : ℕ) (hK : 0 < K) (ι : ReservoirSampler → ℚ → ℕ)
    (ws : List ℚ) : ∀ (vs : List ℚ) (sp : ReservoirSampler), SamplerInv K vs sp →
    SamplerInv K (vs ++ ws) (ws.foldl (fun s x => s.update x (ι s x)) sp) := by
  induction ws with
  | nil => intro vs sp h; simpa using h
  | cons w ws ih =>
    intro vs sp h
    have h1 := samplerInv_step K hK h w (ι sp w)
    have h2 := ih (vs ++ [w]) (sp.update w (ι sp w)) h1
    simpa using h2

/- ================================================================
   The percentile/extrema chain
   ================================================================ -/

/-- The invariant claimed for finalized metrics: all percentile and extremum
fields are present and satisfy `p50 ≤ p90 ≤ p95 ≤ p99 ≤ max` and
`min ≤ avg ≤ max`. -/
def PercentileChain (p50? p90? p95? p99? mx? mn? av? : Option ℚ) : Prop :=
  ∃ p50 p90 p95 p99 mx mn av,
    p50? = some p50 ∧ p90? = some p90 ∧ p95? = some p95 ∧ p99? = some p99 ∧
    mx? = some mx ∧ mn? = some mn ∧ av? = some av ∧
    p50 ≤ p90 ∧ p90 ≤ p95 ∧ p95 ≤ p99 ∧ p99 ≤ mx ∧ mn ≤ av ∧ av ≤ mx

/-- A Welford accumulator and a reservoir sampler fed the same non-empty
stream satisfy the chain. -/
theorem pair_chain (K : ℕ) (hK : 0 < K) (vs : List ℚ) (hvs : vs ≠ [])
    (sp : ReservoirSampler) (hsp : SamplerInv K vs sp) :
    PercentileChain (sp.percentile 50) (sp.percentile 90) (sp.percentile 95)
      (sp.percentile 99) (statsOf vs).max (statsOf vs).min (statsOf vs).avg := by
  obtain ⟨hsize, hmem, hne⟩ := hsp
  have hsample : sp.sample ≠ [] := hne hvs
  have hempty : sp.sample.isEmpty = false := by
    rw [List.isEmpty_eq_false]
    exact hsample
  obtain ⟨a, b, hmin, hmax, hbound, hn, hmean⟩ := statsOf_spec vs hvs
  have hnpos : 0 < (statsOf vs).n := by
    rw [hn]
    exact List.length_pos.mpr hvs
  obtain ⟨hma, hmb⟩ := mean_between vs hvs hbound hmean
  have hperc : ∀ p : ℚ, sp.percentile p = some (npPercentile sp.sample p) := by
    intro p
    simp [ReservoirSampler.percentile, hempty]
  refine ⟨npPercentile sp.sample 50, npPercentile sp.sample 90, npPercentile sp.sample 95,
    npPercentile sp.sample 99, b, a, (statsOf vs).mean, hperc 50, hperc 90, hperc 95, hperc 99,
    ?_, ?_, ?_, ?_, ?_, ?_, ?_, ?_, ?_⟩
  · simp [StreamingStats.max, hnpos, hmax]
  · simp [StreamingStats.min, hnpos, hmin]
  · rfl
  · exact npPercentile_mono sp.sample hsample (by norm_num) (by norm_num) (by norm_num)
  · exact npPercentile_mono sp.sample hsample (by norm_num) (by norm_num) (by norm_num)
  · exact npPercentile_mono sp.sample hsample (by norm_num) (by norm_num) (by norm_num)
  · exact npPercentile_le_of_bound sp.sample hsample (by norm_num) (by norm_num)
      (fun y hy => (hbound y (hmem y hy)).2)
  · exact hma
  · exact hmb

/- ================================================================
   Global aggregator fold lemmas
   ================================================================ -/

theorem global_update_response_stats (g : GlobalMetricsAggregator) (rand : ℕ → ℕ)
    (c : List LogRecord) :
    (g.update rand c).response_stats =
      (c.map (·.response_time_ms)).foldl StreamingStats.update g.response_stats := by
  rcases eq_or_ne c [] with rfl | hc
  · simp [GlobalMetricsAggregator.update]
  · simp [GlobalMetricsAggregator.update, List.isEmpty_eq_false.mpr hc]

theorem global_update_response_sampler (g : GlobalMetricsAggregator) (rand : ℕ → ℕ)
    (c : List LogRecord) :
    (g.update rand c).response_sampler =
      (c.map (·.response_time_ms)).foldl
        (fun sp x => sp.update x (rand (sp.count + 1))) g.response_sampler := by
  rcases eq_or_ne c [] with rfl | hc
  · simp [GlobalMetricsAggregator.update]
  · simp [GlobalMetricsAggregator.update, List.isEmpty_eq_false.mpr hc]

theorem global_update_total (g : GlobalMetricsAggregator) (rand : ℕ → ℕ)
    (c : List LogRecord) :
    (g.update rand c).total_requests = g.total_requests + c.length := by
  rcases eq_or_ne c [] with rfl | hc
  · simp [GlobalMetricsAggregator.update]
  · simp [GlobalMetricsAggregator.update, List.isEmpty_eq_false.mpr hc]

theorem globalFold_response_stats (rand : ℕ → ℕ) (cs : List (List LogRecord)) :
    ∀ g : GlobalMetricsAggregator,
    (cs.foldl (fun g c => g.update rand c) g).response_stats =
      ((cs.flatten).map (·.response_time_ms)).foldl StreamingStats.update g.response_stats := by
  induction cs with
  | nil => intro g; rfl
  | cons c cs ih =>
    intro g
    simp only [List.foldl_cons, List.flatten_cons, List.map_append, List.foldl_append]
    rw [ih, global_update_response_stats]

theorem globalFold_response_sampler (rand : ℕ → ℕ) (cs : List (List LogRecord)) :
    ∀ g : GlobalMetricsAggregator,
    (cs.foldl (fun g c => g.update rand c) g).response_sampler =
      ((cs.flatten).map (·.response_time_ms)).foldl
        (fun sp x => sp.update x (rand (sp.count + 1))) g.response_sampler := by
  induction cs with
  | nil => intro g; rfl
  | cons c cs ih =>
    intro g
    simp only [List.foldl_cons, List.flatten_cons, List.map_append, List.foldl_append]
    rw [ih, global_update_response_sampler]

theorem globalFold_total (rand : ℕ → ℕ) (cs : List (List LogRecord)) :
    ∀ g : GlobalMetricsAggregator,
    (cs.foldl (fun g c => g.update rand c) g).total_requests =
      g.total_requests + (cs.flatten).length := by
  induction cs with
  | nil => intro g; simp
  | cons c cs ih =>
    intro g
    simp only [List.foldl_cons, List.flatten_cons, List.length_append]
    rw [ih, global_update_total]
    omega

/- ================================================================
   Endpoint aggregator fold lemmas
   ================================================================ -/

/-- Invariant of a per-url accumulator: some stream `vs` explains its request
count, its Welford response accumulator and its response sampler. -/
def EntryInv (K : ℕ) (st : EndpointStats) : Prop :=
  ∃ vs : List ℚ, st.total_requests = vs.length ∧
    st.response_stats = statsOf vs ∧ SamplerInv K vs st.response_sampler

theorem entryInv_init (K : ℕ) : EntryInv K (EndpointStats.init K) :=
  ⟨[], rfl, rfl, samplerInv_init K⟩

theorem entryInv_updateGroup (K : ℕ) (hK : 0 < K) {st : EndpointStats}
    (hinv : EntryInv K st) (rand : ℕ → ℕ) (group : List LogRecord) :
    EntryInv K (st.updateGroup rand group) := by
  obtain ⟨vs, htot, hst, hsp⟩ := hinv
  refine ⟨vs ++ group.map (·.response_time_ms), ?_, ?_, ?_⟩
  · show st.total_requests + group.length = _
    rw [htot, List.length_append, List.length_map]
  · show (feedPair (group.map (·.response_time_ms)) rand st.response_stats st.response_sampler).1 = _
    rw [statsOf_append, ← hst]
    rfl
  · show SamplerInv K _ (feedPair (group.map (·.response_time_ms)) rand st.response_stats st.response_sampler).2
    have := samplerInv_fold K hK (fun s _ => rand (s.count + 1))
      (group.map (·.response_time_ms)) vs st.response_sampler hsp
    exact this

theorem upsert_mem {data : List (String × EndpointStats)} {u : String}
    {st : EndpointStats} {q : String × EndpointStats}
    (hq : q ∈ upsertStats data u st) : q ∈ data ∨ q = (u, st) := by
  unfold upsertStats at hq
  split at hq
  · rw [List.mem_map] at hq
    obtain ⟨p, hp, hpq⟩ := hq
    by_cases hcase : p.1 = u
    · rw [if_pos hcase] at hpq
      exact Or.inr hpq.symm
    · rw [if_neg hcase] at hpq
      exact Or.inl (hpq ▸ hp)
  · rw [List.mem_append, List.mem_singleton] at hq
    exact hq

/-- Invariant of the whole `defaultdict`. -/
def DataInv (K : ℕ) (data : List (String × EndpointStats)) : Prop :=
  ∀ q ∈ data, EntryInv K q.2

theorem lookup_mem_pair {α β : Type} [BEq α] [LawfulBEq α] {l : List (α × β)} {a : α}
    {b : β} (h : l.lookup a = some b) : (a, b) ∈ l := by
  induction l with
  | nil => simp [List.lookup] at h
  | cons p rest ih =>
    obtain ⟨k, v⟩ := p
    simp only [List.lookup] at h
    split at h
    · next hbeq =>
      have hk : a = k := eq_of_beq hbeq
      rw [Option.some_inj] at h
      subst hk
      subst h
      exact List.mem_cons_self _ _
    · exact List.mem_cons_of_mem _ (ih h)

theorem dataInv_lookup (K : ℕ) {data : List (String × EndpointStats)}
    (hinv : DataInv K data) (u : String) :
    EntryInv K ((data.lookup u).getD (EndpointStats.init K)) := by
  rcases hlk : data.lookup u with _ | st
  · exact entryInv_init K
  · exact hinv (u, st) (lookup_mem_pair hlk)

theorem dataInv_foldUrls (K : ℕ) (hK : 0 < K) (rand : ℕ → ℕ) (c : List LogRecord)
    (urls : List String) : ∀ data : List (String × EndpointStats), DataInv K data →
    DataInv K (urls.foldl
      (fun data url =>
        let group := c.filter (·.url = url)
        let st := (data.lookup url).getD (EndpointStats.init K)
        upsertStats data url (st.updateGroup rand group)) data) := by
  induction urls with
  | nil => intro data h; exact h
  | cons u urls ih =>
    intro data h
    apply ih
    intro q hq
    rcases upsert_mem hq with hmem | rfl
    · exact h q hmem
    · exact entryInv_updateGroup K hK (dataInv_lookup K h u) rand _

theorem endpoint_update_inv (K : ℕ) (hK : 0 < K) (rand : ℕ → ℕ)
    {a : EndpointMetricsAggregator} (hsize : a.sampler_size = K)
    (hinv : DataInv K a.data) (c : List LogRecord) :
    (a.update rand c).sampler_size = K ∧ DataInv K ((a.update rand c).data) := by
  unfold EndpointMetricsAggregator.update
  split
  · exact ⟨hsize, hinv⟩
  · refine ⟨hsize, ?_⟩
    show DataInv K (((c.map (·.url)).dedup).foldl _ a.data)
    rw [hsize]
    exact dataInv_foldUrls K hK rand c _ a.data hinv

theorem endpointFold_inv (K : ℕ) (hK : 0 < K) (rand : ℕ → ℕ)
    (cs : List (List LogRecord)) :
    ∀ a : EndpointMetricsAggregator, a.sampler_size = K → DataInv K a.data →
    (cs.foldl (fun a c => a.update rand c) a).sampler_size = K ∧
      DataInv K ((cs.foldl (fun a c => a.update rand c) a).data) := by
  induction cs with
  | nil => intro a h1 h2; exact ⟨h1, h2⟩
  | cons c cs ih =>
    intro a h1 h2
    obtain ⟨h1', h2'⟩ := endpoint_update_inv K hK rand h1 h2 c
    exact ih (a.update rand c) h1' h2'

/-- Every entry emitted by `EndpointMetricsAggregator.get_metrics` from an
invariant-satisfying state satisfies the chain. -/
theorem endpoint_metrics_chain (K : ℕ) (hK : 0 < K)
    {a : EndpointMetricsAggregator} (hinv : DataInv K a.data)
    {e : EndpointMetrics} (he : e ∈ a.get_metrics) :
    PercentileChain e.median_response_time e.p90_response_time e.p95_response_time
      e.p99_response_time e.max_response_time e.min_response_time e.avg_response_time := by
  unfold EndpointMetricsAggregator.get_metrics at he
  rw [List.mem_filterMap] at he
  obtain ⟨p, hp, hpe⟩ := he
  obtain ⟨vs, htot, hst, hsp⟩ := hinv p hp
  dsimp only at hpe
  split at hpe
  · exact absurd hpe (by simp)
  · next htot0 =>
    have hvs : vs ≠ [] := by
      intro hcon
      rw [hcon] at htot
      simp at htot
      exact htot0 htot
    have hchain := pair_chain K hK vs hvs p.2.response_sampler hsp
    rw [← hst] at hchain
    rw [Option.some_inj] at hpe
    subst hpe
    exact hchain

/- ================================================================
   Claim C3
   ================================================================ -/

/-- C3: for every non-empty global or endpoint aggregator state (at least one
record observed, i.e. a state reached from a fresh aggregator by any sequence
of chunk updates with at least one record in total, under any draw of random
reservoir indices), the finalized metrics satisfy
`p50 ≤ p90 ≤ p95 ≤ p99 ≤ max_response_time` and
`min_response_time ≤ avg_response_time ≤ max_response_time`. -/
theorem aggregator_percentile_chain (K : ℕ) (hK : 0 < K) :
    (∀ (rand : ℕ → ℕ) (cs : List (List LogRecord)), cs.flatten ≠ [] →
      ∃ m, (cs.foldl (fun g c => g.update rand c)
          (GlobalMetricsAggregator.init K)).get_metrics = some m ∧
        PercentileChain m.median_response_time m.p90_response_time m.p95_response_time
          m.p99_response_time m.max_response_time m.min_response_time m.avg_response_time) ∧
    (∀ (rand : ℕ → ℕ) (cs : List (List LogRecord)) (e : EndpointMetrics),
      e ∈ (cs.foldl (fun a c => a.update rand c)
          (EndpointMetricsAggregator.init K)).get_metrics →
        PercentileChain e.median_response_time e.p90_response_time e.p95_response_time
          e.p99_response_time e.max_response_time e.min_response_time e.avg_response_time) := by
  constructor
  · intro rand cs hne
    set G := cs.foldl (fun g c => g.update rand c) (GlobalMetricsAggregator.init K) with hG
    set vs := (cs.flatten).map (·.response_time_ms) with hvsdef
    have hvs : vs ≠ [] := by
      rw [hvsdef]
      intro hcon
      rw [List.map_eq_nil_iff] at hcon
      exact hne hcon
    have htotal : G.total_requests = cs.flatten.length := by
      rw [hG, globalFold_total]
      simp [GlobalMetricsAggregator.init]
    have htot0 : ¬ G.total_requests = 0 := by
      rw [htotal]
      intro hcon
      exact hne (List.length_eq_zero.mp hcon)
    have hstats : G.response_stats = statsOf vs := by
      rw [hG, globalFold_response_stats]
      rfl
    have hsp : SamplerInv K vs G.response_sampler := by
      have hbase : (GlobalMetricsAggregator.init K).response_sampler = ReservoirSampler.init K := rfl
      rw [hG, globalFold_response_sampler, hbase, ← hvsdef]
      have hfold := samplerInv_fold K hK (fun s _ => rand (s.count + 1)) vs []
        (ReservoirSampler.init K) (samplerInv_init K)
      rw [List.nil_append] at hfold
      exact hfold
    have hchain := pair_chain K hK vs hvs G.response_sampler hsp
    rw [← hstats] at hchain
    unfold GlobalMetricsAggregator.get_metrics
    rw [if_neg htot0]
    exact ⟨_, rfl, hchain⟩
  · intro rand cs e he
    have hinv := endpointFold_inv K hK rand cs (EndpointMetricsAggregator.init K) rfl
      (by intro q hq; simp [EndpointMetricsAggregator.init] at hq)
    exact endpoint_metrics_chain K hK hinv.2 he

/-- A record used to instantiate witnesses on concrete data. -/
def sampleRecord : LogRecord :=
  { timestamp := 0
    url := "home"
    method := "GET"
    status := 200
    success := true
    response_time_ms := 120
    blocked_ms := none
    connecting_ms := none
    receiving_ms := none
    sending_ms := none
    tls_handshake_ms := none
    waiting_ms := none }

/-- Witness for C3: the chain holds on the concrete one-record stream. -/
theorem aggregator_percentile_chain_witness :
    ∃ m, ([[sampleRecord]].foldl (fun g c => g.update (fun _ => 0) c)
        (GlobalMetricsAggregator.init 1)).get_metrics = some m ∧
      PercentileChain m.median_response_time m.p90_response_time m.p95_response_time
        m.p99_response_time m.max_response_time m.min_response_time m.avg_response_time :=
  (aggregator_percentile_chain 1 (by decide)).1 (fun _ => 0) [[sampleRecord]] (by simp)

/- ================================================================
   Claim C1 infrastructure
   ================================================================ -/

theorem lookup_replace_isSome (l : List (ℕ × Job)) (k : ℕ) (j' : Job) :
    ((l.map (fun p => if p.1 = k then (k, j') else p)).lookup k).isSome =
      (l.lookup k).isSome := by
  induction l with
  | nil => rfl
  | cons p rest ih =>
    obtain ⟨a, b⟩ := p
    simp only [List.map_cons]
    by_cases hp : a = k
    · subst hp
      rw [show (if ((a : ℕ), b).1 = a then (a, j') else (a, b)) = (a, j') from if_pos rfl]
      simp [List.lookup]
    · have hne : (k == a) = false := by
        rw [beq_eq_false_iff_ne]
        exact fun hcon => hp hcon.symm
      rw [show (if ((a : ℕ), b).1 = k then (k, j') else (a, b)) = (a, b) from if_neg hp]
      simp only [List.lookup, hne]
      exact ih

/-- When the job row exists, `Db.update_job_status` succeeds, touches only the
`jobs` table, and keeps the row present. -/
theorem db_update_job_status_ok (db : Db) (jid : ℕ) (st : JobStatus)
    (t0 t1 : Option ℚ) (ed : Option String) (rd : Option (List (String × String)))
    (h : (db.jobs.lookup jid).isSome) :
    ∃ db', db.update_job_status jid st t0 t1 ed rd = .ok db' ∧
      db'.request_logs = db.request_logs ∧
      db'.request_logs_staging = db.request_logs_staging ∧
      db'.ingestion_jobs = db.ingestion_jobs ∧
      db'.queue = db.queue ∧
      (db'.jobs.lookup jid).isSome := by
  rcases hlk : db.jobs.lookup jid with _ | j
  · rw [hlk] at h
    simp at h
  · rcases hupd : JobService.update_job_status (some j) st t0 t1 ed rd with e | j'
    · exact absurd hupd (by simp [JobService.update_job_status])
    · refine ⟨{ db with jobs := db.jobs.map (fun p => if p.1 = jid then (jid, j') else p) },
        ?_, rfl, rfl, rfl, rfl, ?_⟩
      · unfold Db.update_job_status
        rw [hlk, hupd]
      · show ((db.jobs.map (fun p => if p.1 = jid then (jid, j') else p)).lookup jid).isSome
        rw [lookup_replace_isSome, hlk]
        rfl

theorem filter_not_then_filter (l : List DbLogRow) (id : ℕ) :
    ((l.filter (fun r => ¬ r.job_id = id)).filter (fun r => r.job_id = id)) = [] := by
  induction l with
  | nil => rfl
  | cons r rest ih =>
    by_cases hr : r.job_id = id
    · simp [List.filter_cons, hr, ih]
    · simp [List.filter_cons, hr, ih]

theorem filter_eq_of_disjoint (l : List DbLogRow) (id : ℕ)
    (h : ∀ r ∈ l, r.job_id ≠ id) : l.filter (fun r => r.job_id = id) = [] := by
  induction l with
  | nil => rfl
  | cons r rest ih =>
    have hr : r.job_id ≠ id := h r (List.mem_cons_self _ _)
    simp only [List.filter_cons, decide_eq_true_eq]
    rw [if_neg hr]
    exact ih (fun x hx => h x (List.mem_cons_of_mem _ hx))

theorem filter_tagged_rows (rows : List DbLogRow) (id : ℕ) :
    ((rows.map (tagRow id)).filter (fun r => r.job_id = id)) = rows.map (tagRow id) := by
  induction rows with
  | nil => rfl
  | cons r rest ih =>
    simp [tagRow, List.map_cons, List.filter_cons, ih]


/-- C1: for every ingestion task run by the worker (with a fresh job: no rows
of this job in either log table, the `jobs` row and the ingestion-job row
present), persistence is all-or-nothing.  On clean EOF (`failAfter = none`)
the promotion puts exactly the job's records into `request_logs`, clears its
staging rows, and completes the ingestion-job row with counts and timestamps;
on any failure the rollback leaves no rows of the job in either table and the
ingestion-job row is failed with `error_details`. -/
theorem ingestion_all_or_nothing
    (db : Db) (job_id ingestion_job_id : ℕ) (chunks : List (List DbLogRow))
    (failAfter : Option ℕ) (t0 t1 : ℚ)
    (hstage : ∀ r ∈ db.request_logs_staging, r.job_id ≠ ingestion_job_id)
    (hlogs : ∀ r ∈ db.request_logs, r.job_id ≠ ingestion_job_id)
    (hjob : (db.jobs.lookup job_id).isSome)
    (hing : ∃ j ∈ db.ingestion_jobs, j.id = ingestion_job_id) :
    ((process_file_ingestion db job_id ingestion_job_id chunks failAfter t0 t1).1.request_logs_staging.filter
        (fun r => r.job_id = ingestion_job_id)) = [] ∧
    (failAfter = none →
      (process_file_ingestion db job_id ingestion_job_id chunks failAfter t0 t1).2 = none ∧
      (process_file_ingestion db job_id ingestion_job_id chunks failAfter t0 t1).1.request_logs.filter
          (fun r => r.job_id = ingestion_job_id) =
        chunks.flatten.map (tagRow ingestion_job_id) ∧
      ∃ j ∈ (process_file_ingestion db job_id ingestion_job_id chunks failAfter t0 t1).1.ingestion_jobs,
        j.id = ingestion_job_id ∧ j.status = "completed" ∧
        j.rows_ingested = some chunks.flatten.length ∧
        j.total_rows = some chunks.flatten.length ∧
        j.started_at = some t0 ∧ j.finished_at = some t1) ∧
    (∀ k, failAfter = some k →
      (process_file_ingestion db job_id ingestion_job_id chunks failAfter t0 t1).2 =
        some "ingestion failed" ∧
      (process_file_ingestion db job_id ingestion_job_id chunks failAfter t0 t1).1.request_logs.filter
          (fun r => r.job_id = ingestion_job_id) = [] ∧
      ∃ j ∈ (process_file_ingestion db job_id ingestion_job_id chunks failAfter t0 t1).1.ingestion_jobs,
        j.id = ingestion_job_id ∧ j.status = "failed" ∧
        j.error_details = some "ingestion failed") := by
  obtain ⟨db1, h1, hrl1, hst1, hij1, hq1, hj1⟩ :=
    db_update_job_status_ok db job_id JobStatus.in_progress (some t0) none none none hjob
  cases failAfter with
  | none =>
    set dbS := ingestSuccessDb db1 ingestion_job_id chunks t0 t1 with hdbS
    have hstep : ingest_file_to_db_with_staging db1 ingestion_job_id chunks none t0 t1 =
        (dbS, none) := rfl
    have hsomeS : (dbS.jobs.lookup job_id).isSome := hj1
    obtain ⟨db3, h3, hrl3, hst3, hij3, hq3, hj3⟩ :=
      db_update_job_status_ok dbS job_id JobStatus.completed none (some t1) none
        (some [("message", "Ingestion completed successfully")]) hsomeS
    have hrun : process_file_ingestion db job_id ingestion_job_id chunks none t0 t1 =
        (db3, none) := by
      simp only [process_file_ingestion, h1, hstep, h3]
    rw [hrun]
    have hNEW : ((chunks.flatten.map (tagRow ingestion_job_id)).filter
        (fun r => r.job_id = ingestion_job_id)) =
        chunks.flatten.map (tagRow ingestion_job_id) := filter_tagged_rows _ _
    have hP : ((db1.request_logs_staging ++ chunks.flatten.map (tagRow ingestion_job_id)).filter
          (fun r => r.job_id = ingestion_job_id)) =
        chunks.flatten.map (tagRow ingestion_job_id) := by
      rw [List.filter_append, hst1, filter_eq_of_disjoint _ _ hstage, hNEW, List.nil_append]
    refine ⟨?_, ?_, ?_⟩
    · show (db3.request_logs_staging.filter (fun r => r.job_id = ingestion_job_id)) = []
      rw [hst3]
      show (((db1.request_logs_staging ++ chunks.flatten.map (tagRow ingestion_job_id)).filter
          (fun r => ¬ r.job_id = ingestion_job_id)).filter
          (fun r => r.job_id = ingestion_job_id)) = []
      exact filter_not_then_filter _ _
    · intro _
      refine ⟨rfl, ?_, ?_⟩
      · show (db3.request_logs.filter (fun r => r.job_id = ingestion_job_id)) = _
        rw [hrl3]
        show ((db1.request_logs ++ ((db1.request_logs_staging ++
            chunks.flatten.map (tagRow ingestion_job_id)).filter
            (fun r => r.job_id = ingestion_job_id))).filter
            (fun r => r.job_id = ingestion_job_id)) = _
        rw [List.filter_append, hrl1, filter_eq_of_disjoint _ _ hlogs, List.nil_append, hP, hNEW]
      · obtain ⟨j0, hj0mem, hj0id⟩ := hing
        rw [hij3]
        have hijS : dbS.ingestion_jobs = db1.ingestion_jobs.map (fun j =>
            if j.id = ingestion_job_id then
              { j with
                status := "completed"
                rows_ingested := some (((db1.request_logs_staging ++
                  chunks.flatten.map (tagRow ingestion_job_id)).filter
                  (fun r => r.job_id = ingestion_job_id)).length)
                total_rows := some (((db1.request_logs_staging ++
                  chunks.flatten.map (tagRow ingestion_job_id)).filter
                  (fun r => r.job_id = ingestion_job_id)).length)
                started_at := some t0
                finished_at := some t1 }
            else j) := rfl
        rw [hijS, hij1]
        refine ⟨_, List.mem_map_of_mem _ hj0mem, ?_⟩
        rw [if_pos hj0id]
        refine ⟨hj0id, rfl, ?_, ?_, rfl, rfl⟩
        · rw [hP, List.length_map]
        · rw [hP, List.length_map]
    · intro k hk
      exact absurd hk (by simp)
  | some k =>
    set dbF := ingestFailureDb db1 ingestion_job_id chunks k t1 with hdbF
    have hstep : ingest_file_to_db_with_staging db1 ingestion_job_id chunks (some k) t0 t1 =
        (dbF, some "ingestion failed") := rfl
    have hsomeF : (dbF.jobs.lookup job_id).isSome := hj1
    obtain ⟨db3, h3, hrl3, hst3, hij3, hq3, hj3⟩ :=
      db_update_job_status_ok dbF job_id JobStatus.failed none (some t1)
        (some "ingestion failed") none hsomeF
    have hrun : process_file_ingestion db job_id ingestion_job_id chunks (some k) t0 t1 =
        (db3, some "ingestion failed") := by
      simp only [process_file_ingestion, h1, hstep, h3]
    rw [hrun]
    refine ⟨?_, ?_, ?_⟩
    · show (db3.request_logs_staging.filter (fun r => r.job_id = ingestion_job_id)) = []
      rw [hst3]
      show (((db1.request_logs_staging ++
          ((chunks.take k).flatten).map (tagRow ingestion_job_id)).filter
          (fun r => ¬ r.job_id = ingestion_job_id)).filter
          (fun r => r.job_id = ingestion_job_id)) = []
      exact filter_not_then_filter _ _
    · intro hcon
      exact absurd hcon (by simp)
    · intro k' hk'
      refine ⟨rfl, ?_, ?_⟩
      · show (db3.request_logs.filter (fun r => r.job_id = ingestion_job_id)) = []
        rw [hrl3]
        show (db1.request_logs.filter (fun r => r.job_id = ingestion_job_id)) = []
        rw [hrl1]
        exact filter_eq_of_disjoint _ _ hlogs
      · obtain ⟨j0, hj0mem, hj0id⟩ := hing
        rw [hij3]
        have hijF : dbF.ingestion_jobs = db1.ingestion_jobs.map (fun j =>
            if j.id = ingestion_job_id then
              { j with
                status := "failed"
                error_details := some "ingestion failed"
                finished_at := some t1 }
            else j) := rfl
        rw [hijF, hij1]
        refine ⟨_, List.mem_map_of_mem _ hj0mem, ?_⟩
        rw [if_pos hj0id]
        exact ⟨hj0id, rfl, rfl⟩

/-- A concrete pivoted row for witnesses. -/
def sampleRow : DbLogRow :=
  { job_id := 0
    timestamp := 0
    url := "https://test.k6.io/"
    method := "GET"
    status_code := 200
    success := true
    response_time_ms := 120 }

/-- A concrete orchestration job row for witnesses. -/
def sampleJob : Job :=
  { job_type := JobType.ingestion
    status := JobStatus.pending
    created_at := 0
    started_at := none
    finished_at := none
    ingestion_job_id := some 7
    file_id := some "f.json"
    report_id := none
    result_data := none
    error_details := none
    retry_count := 0
    can_retry := true }

/-- A concrete database for witnesses: one pending job, one ingestion-job row,
no log rows. -/
def sampleDb : Db :=
  { request_logs := []
    request_logs_staging := []
    ingestion_jobs :=
      [{ id := 7
         file_id := "f.json"
         status := "pending"
         rows_ingested := some 0
         total_rows := some 0
         started_at := none
         finished_at := none
         error_details := none }]
    jobs := [(3, sampleJob)]
    queue := [] }

/-- Witness for C1 at a concrete database and one-chunk upload. -/
theorem ingestion_all_or_nothing_witness :
    ((process_file_ingestion sampleDb 3 7 [[sampleRow]] none 0 1).1.request_logs_staging.filter
        (fun r => r.job_id = 7)) = [] :=
  (ingestion_all_or_nothing sampleDb 3 7 [[sampleRow]] none 0 1
    (by simp [sampleDb]) (by simp [sampleDb]) (by decide) (by decide)).1

/- ================================================================
   Claims C4 and C5
   ================================================================ -/

/-- C4 counterexample: on a fresh Welford accumulator (`n == 0`) the `avg`
property is not null — the code returns `self.mean`, i.e. `0.0`.  This
refutes the claim that `avg`, `min` and `max` all return null when `n == 0`. -/
theorem streaming_stats_fresh_avg_not_null :
    StreamingStats.init.n = 0 ∧ StreamingStats.init.avg ≠ none := by
  exact ⟨rfl, by decide⟩

/-- C4 amended: on a Welford accumulator with no updates (`n == 0`, i.e. the
fresh accumulator), `min` and `max` return null but `avg` returns the initial
mean `0.0`. -/
theorem streaming_stats_fresh_accessors :
    StreamingStats.init.n = 0 ∧ StreamingStats.init.min = none ∧
      StreamingStats.init.max = none ∧ StreamingStats.init.avg = some 0 :=
  ⟨rfl, rfl, rfl, rfl⟩

/-- C5: the reservoir sampler contract.  Every update increments the count;
`x` is appended while the buffer holds fewer than `size` items; otherwise the
buffer cell `idx` (the index drawn from `[0, count − 1]`) is overwritten
exactly when `idx < size` and the buffer is left unchanged otherwise; the
buffer never grows beyond `size`; and `percentile` returns null exactly on
an empty buffer, and otherwise `np.percentile` of the buffer (linear
interpolation). -/
theorem reservoir_sampler_contract (s : ReservoirSampler) (x : ℚ) (idx : ℕ) (p : ℚ) :
    (s.update x idx).count = s.count + 1 ∧
    (s.sample.length < s.size → (s.update x idx).sample = s.sample ++ [x]) ∧
    (s.size ≤ s.sample.length → idx < s.size →
      (s.update x idx).sample = s.sample.set idx x) ∧
    (s.size ≤ s.sample.length → s.size ≤ idx → (s.update x idx).sample = s.sample) ∧
    (s.sample.length ≤ s.size → (s.update x idx).sample.length ≤ s.size) ∧
    (s.percentile p = none ↔ s.sample = []) ∧
    (s.sample ≠ [] → s.percentile p = some (npPercentile s.sample p)) := by
  refine ⟨rfl, ?_, ?_, ?_, ?_, ?_, ?_⟩
  · intro h
    simp [ReservoirSampler.update, h]
  · intro h1 h2
    simp [ReservoirSampler.update, Nat.not_lt.mpr h1, h2]
  · intro h1 h2
    simp [ReservoirSampler.update, Nat.not_lt.mpr h1, Nat.not_lt.mpr h2]
  · intro h
    rcases lt_or_ge s.sample.length s.size with hlt | hge
    · simp only [ReservoirSampler.update, if_pos hlt]
      rw [List.length_append]
      simp only [List.length_singleton]
      omega
    · simp only [ReservoirSampler.update, if_neg (Nat.not_lt.mpr hge)]
      split
      · rw [List.length_set]
        exact h
      · exact h
  · unfold ReservoirSampler.percentile
    constructor
    · intro hh
      split at hh
      · next he => exact List.isEmpty_iff.mp he
      · exact absurd hh (by simp)
    · intro hh
      rw [if_pos (List.isEmpty_iff.mpr hh)]
  · intro hh
    unfold ReservoirSampler.percentile
    rw [if_neg (fun hcon => hh (List.isEmpty_iff.mp hcon))]

/-- Witness for C5 at concrete samplers: a non-full buffer appends, a full
buffer overwrites cell `idx` when `idx < size` and is untouched when
`idx ≥ size`, the count always increments, and `percentile` is non-null on
the non-empty buffer. -/
theorem reservoir_sampler_contract_witness :
    (ReservoirSampler.update ⟨2, [1], 5⟩ 9 0).count = 6 ∧
    (ReservoirSampler.update ⟨2, [1], 5⟩ 9 0).sample = [1, 9] ∧
    (ReservoirSampler.update ⟨1, [4], 3⟩ 9 0).sample = [9] ∧
    (ReservoirSampler.update ⟨1, [4], 3⟩ 9 7).sample = [4] ∧
    (ReservoirSampler.percentile ⟨1, [4], 3⟩ 50 =
      some (npPercentile [4] 50)) := by
  refine ⟨?_, ?_, ?_, ?_, ?_⟩
  · exact (reservoir_sampler_contract ⟨2, [1], 5⟩ 9 0 50).1
  · exact (reservoir_sampler_contract ⟨2, [1], 5⟩ 9 0 50).2.1 (by decide)
  · exact (reservoir_sampler_contract ⟨1, [4], 3⟩ 9 0 50).2.2.1 (by decide) (by decide)
  · exact (reservoir_sampler_contract ⟨1, [4], 3⟩ 9 7 50).2.2.2.1 (by decide) (by decide)
  · exact (reservoir_sampler_contract ⟨1, [4], 3⟩ 9 7 50).2.2.2.2.2.2 (by decide)

/- ================================================================
   Claim C7
   ================================================================ -/

/-- C7: a line on which `json.loads` fails (`none`) is skipped without
aborting: the reader's output on any stream containing a malformed line in
the middle is exactly the concatenation of the outputs on the surrounding
lines, so the malformed line contributes no raw row and every other line is
processed normally. -/
theorem process_chunk_skips_malformed (xs ys : List K6Line) :
    process_chunk (xs ++ (none : K6Line) :: ys) = process_chunk xs ++ process_chunk ys := by
  induction xs with
  | nil => rfl
  | cons l xs ih =>
    cases l with
    | none =>
      show process_chunk (xs ++ none :: ys) = process_chunk (none :: xs) ++ process_chunk ys
      rw [ih]
      rfl
    | some obj =>
      show process_chunk ((some obj : K6Line) :: (xs ++ none :: ys)) = _
      by_cases h1 : obj.type_tag ≠ some "Point"
      · rw [show process_chunk ((some obj : K6Line) :: (xs ++ none :: ys)) =
            process_chunk (xs ++ none :: ys) by rw [process_chunk]; rw [if_pos h1]]
        rw [show process_chunk ((some obj : K6Line) :: xs) = process_chunk xs by
            rw [process_chunk]; rw [if_pos h1]]
        exact ih
      · by_cases h2 : metricOfInterest obj.metric = false
        · rw [show process_chunk ((some obj : K6Line) :: (xs ++ none :: ys)) =
              process_chunk (xs ++ none :: ys) by
              rw [process_chunk]; rw [if_neg h1, if_pos h2]]
          rw [show process_chunk ((some obj : K6Line) :: xs) = process_chunk xs by
              rw [process_chunk]; rw [if_neg h1, if_pos h2]]
          exact ih
        · rw [show process_chunk ((some obj : K6Line) :: (xs ++ none :: ys)) =
              { timestamp := obj.time
                metric_name := obj.metric.getD ""
                metric_value := obj.value
                name := obj.name
                method := obj.method
                url := obj.url
                status := obj.status } :: process_chunk (xs ++ none :: ys) by
              rw [process_chunk]; rw [if_neg h1, if_neg h2]]
          rw [show process_chunk ((some obj : K6Line) :: xs) =
              { timestamp := obj.time
                metric_name := obj.metric.getD ""
                metric_value := obj.value
                name := obj.name
                method := obj.method
                url := obj.url
                status := obj.status } :: process_chunk xs by
              rw [process_chunk]; rw [if_neg h1, if_neg h2]]
          rw [ih]
          rfl

/- ================================================================
   Claims C2 and C6
   ================================================================ -/

/-- A raw row whose `url` tag is the known alias `home`. -/
def homeRawRow : RawRow :=
  { timestamp := 0
    metric_name := "http_req_duration"
    metric_value := 120
    name := some "home"
    method := some "GET"
    url := some "home"
    status := some "200" }

/-- A raw row whose `url` tag is `checkout`, which is not a key of
`url_mappings`. -/
def checkoutRawRow : RawRow :=
  { timestamp := 0
    metric_name := "http_req_duration"
    metric_value := 120
    name := some "checkout"
    method := some "GET"
    url := some "checkout"
    status := some "200" }

/-- C2: evaluation of `to_pivot_df` at the failing input.  A known alias is
rewritten, but `df_pivot["url"].map(url_mappings)` sends the unknown token
`checkout` to NaN (`none`), not to the unchanged string `"checkout"` that the
spec requires: the canonical record loses its url. -/
theorem url_mapping_drops_unknown_alias :
    (to_pivot_df [homeRawRow]).map (fun c => c.url) = [some "https://test.k6.io/"] ∧
    (to_pivot_df [checkoutRawRow]).map (fun c => c.url) = [none] ∧
    (to_pivot_df [checkoutRawRow]).map (fun c => c.url) ≠ [some "checkout"] := by
  refine ⟨by decide, by decide, by decide⟩

/-- A parsed K6 line carrying `http_req_duration = 120` for one request. -/
def durPoint : K6Point :=
  { type_tag := some "Point"
    metric := some "http_req_duration"
    time := 0
    value := 120
    name := some "home"
    method := some "GET"
    url := some "home"
    status := some "200" }

/-- The same request's `http_req_blocked = 10` line: identical
`(timestamp, name, method, url, status)` composite key. -/
def blockedPoint : K6Point :=
  { type_tag := some "Point"
    metric := some "http_req_blocked"
    time := 0
    value := 10
    name := some "home"
    method := some "GET"
    url := some "home"
    status := some "200" }

/-- Two metric lines of one logical request. -/
def exampleLines : List K6Line := [some durPoint, some blockedPoint]

/-- The half-record produced for the group's first line when the two lines
fall into different chunks. -/
def splitRecord : CanonicalRecord :=
  { timestamp := 0
    name := "home"
    method := "GET"
    url := some "https://test.k6.io/"
    status := "200"
    success := none
    response_time_ms := some 120
    blocked_ms := none
    connecting_ms := none
    tls_handshake_ms := none
    sending_ms := none
    waiting_ms := none
    receiving_ms := none }

/-- C6 counterexample: with chunk size 1 the two rows of one
`(timestamp, name, method, url, status)` group land in different chunks and
pivot into two records — one of which (duration set, blocked missing) does
not occur in the chunk-size-2 output, where the group pivots into a single
merged record.  The produced set of canonical records therefore depends on
the chunk split. -/
theorem chunk_split_changes_records :
    splitRecord ∈ normalizer_k6_json exampleLines 1 ∧
    splitRecord ∉ normalizer_k6_json exampleLines 2 ∧
    (normalizer_k6_json exampleLines 1).length = 2 ∧
    (normalizer_k6_json exampleLines 2).length = 1 := by
  refine ⟨by decide, by decide, by decide, by decide⟩

theorem filterMap_filter_isSome {α β : Type} (f : α → Option β) (l : List α) :
    ((l.filter (fun a => (f a).isSome)).filterMap f) = l.filterMap f := by
  induction l with
  | nil => rfl
  | cons a l ih =>
    by_cases h : (f a).isSome
    · rcases Option.isSome_iff_exists.mp h with ⟨b, hb⟩
      simp [List.filter_cons, h, List.filterMap_cons, hb, ih]
    · have hf : f a = none := Option.not_isSome_iff_eq_none.mp h
      simp [List.filter_cons, h, List.filterMap_cons, hf, ih]

/-- C6 amended: within one chunk the pivot stage emits exactly one canonical
record per distinct `(timestamp, name, method, url, status)` key among the
fully-tagged rows; but a group whose rows fall into different chunks yields
one record per chunk (the concrete two-line group pivots into one record under
chunk size 2 and two records under chunk size 1), so the output does depend
on the chunk split. -/
theorem pivot_one_record_per_key_within_chunk :
    (∀ df : List RawRow,
      (to_pivot_df df).length = ((df.filterMap (fun r => r.pivotKey)).dedup).length) ∧
    (normalizer_k6_json exampleLines 2).length = 1 ∧
    (normalizer_k6_json exampleLines 1).length = 2 := by
  refine ⟨?_, by decide, by decide⟩
  intro df
  rcases eq_or_ne df [] with rfl | hdf
  · rfl
  · unfold to_pivot_df
    rw [if_neg hdf, List.length_map, filterMap_filter_isSome]

/- ================================================================
   Claims C8, C9, C10
   ================================================================ -/

/-- A failed job with `can_retry = False`: the documented purpose of
`force_retry` ("Force retry even if can_retry is False") is exactly this
case. -/
def failedNoRetryJob : Job :=
  { job_type := JobType.ingestion
    status := JobStatus.failed
    created_at := 0
    started_at := some 1
    finished_at := some 2
    ingestion_job_id := none
    file_id := some "f.json"
    report_id := none
    result_data := none
    error_details := some "boom"
    retry_count := 0
    can_retry := false }

/-- C8: evaluation at the failing input.  `JobService.retry_job` itself honors
`force_retry` (a forced retry of this job succeeds, increments `retry_count`,
resets the status to pending and clears the transient fields), but the HTTP
route drops `request.force_retry` and always calls the service with
`force_retry=False`, so the same request through
`POST /jobs/{id}/retry {force_retry: true}` errors. -/
theorem retry_route_drops_force_retry :
    (∃ j', JobService.retry_job (some failedNoRetryJob) true = Except.ok j' ∧
      j'.retry_count = 1 ∧ j'.status = JobStatus.pending ∧
      j'.started_at = none ∧ j'.finished_at = none ∧ j'.error_details = none) ∧
    retry_job_route (some failedNoRetryJob) true = Except.error "Job cannot be retried" := by
  exact ⟨⟨_, rfl, rfl, rfl, rfl, rfl, rfl⟩, rfl⟩

/-- An empty database for the upload counterexample. -/
def emptyDb : Db :=
  { request_logs := []
    request_logs_staging := []
    ingestion_jobs := []
    jobs := []
    queue := [] }

/-- C9 counterexample: when the broker enqueue fails after the commit, the
handler turns the error into a 500 and leaves the committed job row as it
was: `pending`, not `failed` as the claim requires, and nothing is queued. -/
theorem enqueue_failure_leaves_job_pending :
    (upload_file emptyDb "f.json" 0 false = Except.error "HTTP 500: broker unavailable") ∧
    ∃ job : Job, (upload_file_state emptyDb "f.json" 0 false).jobs = [(0, job)] ∧
      job.status = JobStatus.pending ∧ job.status ≠ JobStatus.failed ∧
      (upload_file_state emptyDb "f.json" 0 false).queue = [] := by
  exact ⟨rfl, _, rfl, rfl, by decide, rfl⟩

/-- C9 amended: the upload handler inserts and commits the ingestion-job row
and the job row before the task is enqueued (a pending job row exists whenever
the task message is queued), but when enqueueing fails after the commit the
handler merely raises a 500: the job row keeps status `pending` — it is not
marked `failed` — and no task is queued. -/
theorem upload_commits_before_enqueue (db : Db) (fid : String) (t : ℚ) :
    (∃ job : Job, job.status = JobStatus.pending ∧
      (upload_file_state db fid t true).jobs = db.jobs ++ [(db.jobs.length, job)] ∧
      (upload_file_state db fid t true).queue =
        db.queue ++ [(db.jobs.length, db.ingestion_jobs.length, fid)]) ∧
    (upload_file db fid t false = Except.error "HTTP 500: broker unavailable") ∧
    (∃ job : Job, job.status = JobStatus.pending ∧ job.status ≠ JobStatus.failed ∧
      (upload_file_state db fid t false).jobs = db.jobs ++ [(db.jobs.length, job)] ∧
      (upload_file_state db fid t false).queue = db.queue) := by
  refine ⟨⟨_, rfl, rfl, rfl⟩, rfl, ⟨_, rfl, fun hcon => JobStatus.noConfusion hcon, rfl, rfl⟩⟩

/-- A job carrying an old failure message, not currently retryable. -/
def staleJob : Job :=
  { job_type := JobType.analysis
    status := JobStatus.in_progress
    created_at := 0
    started_at := some 1
    finished_at := none
    ingestion_job_id := none
    file_id := none
    report_id := some "r1"
    result_data := none
    error_details := some "old failure"
    retry_count := 0
    can_retry := false }

/-- C10 counterexample: supplying the non-null but empty string as
`error_details` leaves the previous message in place and does NOT set
`can_retry` — the code tests truthiness (`if error_details:`), not `is not
None`, so the claim "whenever a non-null error_details is supplied …
can_retry is set to True" fails at `error_details = ""`. -/
theorem empty_error_details_not_applied :
    ∃ j', JobService.update_job_status (some staleJob) JobStatus.failed none none
        (some "") none = Except.ok j' ∧
      j'.error_details = some "old failure" ∧ j'.can_retry = false := by
  exact ⟨_, rfl, rfl, rfl⟩

/-- C10 amended: `update_job_status` always overwrites `status`; each of
`started_at`, `finished_at`, `error_details` and `result_data` keeps its
previous value when its argument is `None` — or, for `error_details` and
`result_data`, when it is falsy (empty string / empty dict) — and `can_retry`
is set to `True` exactly when a non-empty `error_details` string is supplied
(otherwise it keeps its previous value); all other fields are untouched. -/
theorem update_job_status_frame (job : Job) (st : JobStatus) (t0 t1 : Option ℚ)
    (ed : Option String) (rd : Option (List (String × String))) :
    ∃ j', JobService.update_job_status (some job) st t0 t1 ed rd = Except.ok j' ∧
      j'.status = st ∧
      (t0 = none → j'.started_at = job.started_at) ∧
      (∀ q, t0 = some q → j'.started_at = some q) ∧
      (t1 = none → j'.finished_at = job.finished_at) ∧
      (∀ q, t1 = some q → j'.finished_at = some q) ∧
      ((ed = none ∨ ed = some "") →
        j'.error_details = job.error_details ∧ j'.can_retry = job.can_retry) ∧
      (∀ s, ed = some s → ¬ s = "" → j'.error_details = some s ∧ j'.can_retry = true) ∧
      ((rd = none ∨ rd = some []) → j'.result_data = job.result_data) ∧
      (∀ d, rd = some d → ¬ d = [] → j'.result_data = some d) ∧
      j'.job_type = job.job_type ∧ j'.retry_count = job.retry_count ∧
      j'.created_at = job.created_at := by
  refine ⟨_, rfl, rfl, ?_, ?_, ?_, ?_, ?_, ?_, ?_, ?_, rfl, rfl, rfl⟩
  · intro h0
    show (if t0.isSome then t0 else job.started_at) = job.started_at
    rw [h0]
    rfl
  · intro q hq
    show (if t0.isSome then t0 else job.started_at) = some q
    rw [hq]
    rfl
  · intro h0
    show (if t1.isSome then t1 else job.finished_at) = job.finished_at
    rw [h0]
    rfl
  · intro q hq
    show (if t1.isSome then t1 else job.finished_at) = some q
    rw [hq]
    rfl
  · intro hed
    have hf : truthyStr ed = false := by
      rcases hed with rfl | rfl
      · rfl
      · rfl
    constructor
    · show (if truthyStr ed then ed else job.error_details) = job.error_details
      rw [hf]
      rfl
    · show (if truthyStr ed then true else job.can_retry) = job.can_retry
      rw [hf]
      rfl
  · intro s hs hne
    have ht : truthyStr ed = true := by
      rw [hs]
      simp only [truthyStr, decide_eq_true_eq, String.isEmpty_iff]
      exact hne
    constructor
    · show (if truthyStr ed then ed else job.error_details) = some s
      rw [ht, if_pos rfl, hs]
    · show (if truthyStr ed then true else job.can_retry) = true
      rw [ht, if_pos rfl]
  · intro hrd
    have hf : truthyDict rd = false := by
      rcases hrd with rfl | rfl
      · rfl
      · rfl
    show (if truthyDict rd then rd else job.result_data) = job.result_data
    rw [hf]
    rfl
  · intro d hd hne
    have ht : truthyDict rd = true := by
      rw [hd]
      simp only [truthyDict, decide_eq_true_eq, List.isEmpty_iff]
      exact hne
    show (if truthyDict rd then rd else job.result_data) = some d
    rw [ht, if_pos rfl, hd]

/-- Witness for C10's frame property: a concrete update with a non-empty
error message sets the message and flips `can_retry`. -/
theorem update_job_status_frame_witness :
    ∃ j', JobService.update_job_status (some staleJob) JobStatus.failed none none
        (some "boom") none = Except.ok j' ∧
      j'.error_details = some "boom" ∧ j'.can_retry = true := by
  obtain ⟨j', heq, _, _, _, _, _, _, hset, _, _, _, _, _⟩ :=
    update_job_status_frame staleJob JobStatus.failed none none (some "boom") none
  obtain ⟨h1, h2⟩ := hset "boom" rfl (by decide)
  exact ⟨j', heq, h1, h2⟩

/-- Witness for C9's amended property on the empty database: the queued task
references the committed pending job row. -/
theorem upload_commits_before_enqueue_witness :
    ∃ job : Job, job.status = JobStatus.pending ∧
      (upload_file_state emptyDb "g.csv" 0 true).jobs = [(0, job)] ∧
      (upload_file_state emptyDb "g.csv" 0 true).queue = [(0, 0, "g.csv")] := by
  obtain ⟨⟨job, h1, h2, h3⟩, _, _⟩ := upload_commits_before_enqueue emptyDb "g.csv" 0
  refine ⟨job, h1, ?_, ?_⟩
  · rw [h2]
    rfl
  · rw [h3]
    rfl
